import Mathlib

/-!
# Verification of the jira-bug-analyzer retrieval and normalization core

This file gives a shallow embedding, in Lean 4, of the core logic of the
jira-bug-analyzer repository:

* the JavaScript dynamic-value model (`JVal`) used to represent parsed JSON
  values flowing through the untyped TypeScript code, together with the
  JavaScript operations the code uses on them (truthiness, `||` defaulting,
  property access, optional chaining, `Array.prototype.map` / `join`
  semantics, string conversion);
* `services/jira.ts`: `mapIssueToBug`, `extractTextFromADF`,
  `extractCustomFields`, and the pagination loop of
  `fetchBugsWithJqlEndpoint`, `fetchBugsByFilter`, `fetchBugs` (the network is
  modelled as an environment supplying the parsed page responses and the
  per-issue hydration results);
* `services/claude.ts`: the code-fence stripping and JSON parse performed by
  `analyzeBugs`, and the full field-by-field normalization `enrichAnalysis`.

Modelling conventions:

* `undefined` is modelled as `Option.none` at the points where it can occur
  (absent object properties); values produced by `JSON.parse` are `JVal` and
  never `undefined`.
* A thrown `TypeError` (property access on `null`/`undefined`, calling `.map`
  on a value that is not an array) is modelled as `Except.error ()`.
* JSON numbers are modelled as integers (`Int`); no claim under study
  involves fractional numeric literals.
-/

/-- A JavaScript value produced by `JSON.parse`: null, booleans, numbers
(restricted to integers in this model), strings, arrays and objects.
Object member lists are in insertion order and duplicate-free (the parser
overwrites duplicates in place, as `JSON.parse` does). -/
inductive JVal where
  | null
  | bool (b : Bool)
  | num (n : Int)
  | str (s : String)
  | arr (elems : List JVal)
  | obj (members : List (String × JVal))

/-- JavaScript truthiness of a parsed JSON value: `null`, `false`, `0` and
`""` are falsy; every other value (including `[]` and `{}`) is truthy. -/
def truthy : JVal → Bool
  | .null => false
  | .bool b => b
  | .num n => n != 0
  | .str s => s != ""
  | .arr _ => true
  | .obj _ => true

/-- Is the value JSON `null`? -/
def isNull : JVal → Bool
  | .null => true
  | _ => false

/-- Property read `v[k]` on a value that is not `null`/`undefined`:
a lookup on objects, `undefined` (`none`) on every other value (none of the
property names used by the code collides with a built-in of the primitive
wrapper objects). Receivers that would throw (`null`, `undefined`) are
handled at each use site. -/
def getF : JVal → String → Option JVal
  | .obj members, k => (members.find? (fun kv => kv.1 == k)).map (·.2)
  | _, _ => none

/-- Optional chaining `r?.[k]` where the receiver may be `undefined`:
yields `undefined` when the receiver is `undefined` or `null`, otherwise
reads the property. -/
def chain (r : Option JVal) (k : String) : Option JVal :=
  match r with
  | none => none
  | some .null => none
  | some v => getF v k

/-- The JavaScript `x || d` defaulting idiom applied to a possibly-undefined
value: the value itself when truthy, the default otherwise. -/
def jsOr (x : Option JVal) (d : JVal) : JVal :=
  match x with
  | some v => if truthy v then v else d
  | none => d

/-- The test `typeof v === 'string'` for a defined value. -/
def isStringV : JVal → Bool
  | .str _ => true
  | _ => false

/-- The test `typeof v === 'object'` for a defined value (arrays and `null` are
`'object'` in JavaScript). -/
def isObjectType : JVal → Bool
  | .obj _ => true
  | .arr _ => true
  | .null => true
  | _ => false

/-- Strict equality `x === s` between a possibly-undefined value and a string
literal. -/
def strictEqStr (x : Option JVal) (s : String) : Bool :=
  match x with
  | some (.str t) => t == s
  | _ => false

/-- String prefix test `s.startsWith(p)`, computed on the character lists (the byte-level
library primitive does not reduce inside the kernel). -/
def strStartsWith (s p : String) : Bool :=
  p.toList.isPrefixOf s.toList

/-- The underlying element list of `x || []`: the elements when the defaulted
value is an array, `[]` otherwise (the latter only arises when the value is
truthy and not an array, in which case the code would throw; `collOk`
excludes it). -/
def jsArrOf (x : Option JVal) : List JVal :=
  match jsOr x (.arr []) with
  | .arr xs => xs
  | _ => []

/-- Does `(x || []).map(...)` run without throwing, i.e. is `x` absent,
falsy, or an array? -/
def collOk (x : Option JVal) : Bool :=
  match jsOr x (.arr []) with
  | .arr _ => true
  | _ => false

/-- Effectful map in left-to-right order, stopping at the first error:
the evaluation order of `Array.prototype.map` with a callback that can
throw. -/
def mapME {α β : Type} (f : α → Except Unit β) : List α → Except Unit (List β)
  | [] => .ok []
  | x :: xs => do
    let y ← f x
    let ys ← mapME f xs
    return y :: ys

/-- The call `(x || []).map(f)` where the callback can throw: throws when `x` is
truthy and not an array, otherwise maps `f` over the (possibly defaulted)
elements. -/
def collMap {β : Type} (f : JVal → Except Unit β) (x : Option JVal) : Except Unit (List β) :=
  match jsOr x (.arr []) with
  | .arr xs => mapME f xs
  | _ => .error ()

mutual

/-- JavaScript `String(v)` for a parsed JSON value (`Array.prototype.join`
applies it to each defined, non-null element). -/
def jsToString : JVal → String
  | .null => "null"
  | .bool b => if b then "true" else "false"
  | .num n => toString n
  | .str s => s
  | .arr xs => jsJoinComma xs
  | .obj _ => "[object Object]"

/-- The join `Array.prototype.join(',')` used by `String` on arrays: `null` elements
become the empty string. -/
def jsJoinComma : List JVal → String
  | [] => ""
  | [v] => jsElemStr v
  | v :: vs => jsElemStr v ++ "," ++ jsJoinComma vs

/-- One `join` element: `null` (and `undefined`) render as the empty
string. -/
def jsElemStr : JVal → String
  | .null => ""
  | .bool b => if b then "true" else "false"
  | .num n => toString n
  | .str s => s
  | .arr xs => jsJoinComma xs
  | .obj _ => "[object Object]"

end

/-- The join `Array.prototype.join(sep)` over JavaScript values. -/
def joinVals (sep : String) : List JVal → String
  | [] => ""
  | [v] => jsElemStr v
  | v :: vs => jsElemStr v ++ sep ++ joinVals sep vs

example : joinVals "\n" [.str "a", .num 3, .null, .arr [.num 1, .num 2]] = "a\n3\n\n1,2" := by
  decide

example : jsOr (some (.str "")) (.str "medium") = .str "medium" := rfl

/-! ## `extractTextFromADF` (services/jira.ts)

The recursive walk over an Atlassian-Document-Format tree. The inner
`extractText` closure checks `node.type === 'text'` first, then
`node.content && Array.isArray(node.content)`; property access on a `null`
node throws. The top level lacks the `Array.isArray` guard, so a truthy
non-array `content` makes `adf.content.map` throw. -/

mutual

/-- The inner `extractText(node)` closure: the returned JavaScript value
(later stringified by `join`). -/
def exText : JVal → Except Unit JVal
  | .null => .error ()
  | .obj members =>
    if strictEqStr (getF (.obj members) "type") "text" then
      .ok (jsOr (getF (.obj members) "text") (.str ""))
    else exObjContent members
  | _ => .ok (.str "")

/-- Walk the member list of a non-text node for its first `content` member:
`node.content && Array.isArray(node.content)` recurses into array content,
every other case contributes the empty string. -/
def exObjContent : List (String × JVal) → Except Unit JVal
  | [] => .ok (.str "")
  | (k, v) :: rest =>
    if k == "content" then
      match v with
      | .arr xs => do
        let parts ← exTextList xs
        return .str (joinVals "" parts)
      | _ => .ok (.str "")
    else exObjContent rest

/-- The map `content.map(extractText)` in order, propagating a thrown error. -/
def exTextList : List JVal → Except Unit (List JVal)
  | [] => .ok []
  | x :: xs => do
    let y ← exText x
    let ys ← exTextList xs
    return y :: ys

end

/-- Model of `extractTextFromADF(adf)`: `''` when `adf` is falsy/`undefined` or has no
truthy `content`; joins the top-level contributions with `'\n'` when
`content` is an array; throws when `content` is truthy but not an array. -/
def extractTextFromADF (adf : Option JVal) : Except Unit String :=
  match adf with
  | none => .ok ""
  | some v =>
    if truthy v then
      match getF v "content" with
      | none => .ok ""
      | some c =>
        if truthy c then
          match c with
          | .arr xs => do
            let parts ← exTextList xs
            return joinVals "\n" parts
          | _ => .error ()
        else .ok ""
    else .ok ""

example :
    extractTextFromADF (some (.obj [("content", .arr
      [.obj [("type", .str "paragraph"),
             ("content", .arr [.obj [("type", .str "text"), ("text", .str "hi")],
                               .obj [("type", .str "text"), ("text", .str " there")]])],
       .obj [("type", .str "rule")]])])) = .ok "hi there\n" := rfl

/-! ## `mapIssueToBug` (services/jira.ts)

The mapper's output keeps the JavaScript-level values: fields read without a
default may be `undefined` (`Option`), fields defaulted with `||` are always
defined (`JVal`). -/

/-- One mapped comment: `{id, author, body, created}`. -/
structure CommentE where
  id : Option JVal
  author : JVal
  body : JVal
  created : Option JVal

/-- The mapped bug record, field for field as built by `mapIssueToBug`. -/
structure MappedBug where
  key : Option JVal
  id : Option JVal
  summary : JVal
  description : JVal
  status : JVal
  resolution : JVal
  priority : JVal
  components : List (Option JVal)
  labels : JVal
  created : Option JVal
  updated : Option JVal
  reporter : JVal
  assignee : JVal
  comments : List CommentE
  failureType : JVal
  isEscapeBug : Bool
  customerImpact : JVal
  customer : JVal
  severity : JVal
  customFields : List (String × JVal)

/-- The comment callback: throws on a `null` element (property access),
takes `c.body` verbatim when it is a string and flattens it with
`extractTextFromADF` otherwise. -/
def mkComment (c : JVal) : Except Unit CommentE :=
  if isNull c then .error () else do
    let body ←
      match getF c "body" with
      | some (.str s) => pure (JVal.str s)
      | other => do
        let t ← extractTextFromADF other
        pure (JVal.str t)
    return { id := getF c "id"
             author := jsOr (chain (getF c "author") "displayName") (.str "Unknown")
             body := body
             created := getF c "created" }

/-- The value `fields.description`, possibly flattened from ADF, then `|| null`. -/
def mapDescription (d : Option JVal) : Except Unit JVal := do
  let d1 : Option JVal ←
    match d with
    | some v =>
      if truthy v && isObjectType v then do
        let s ← extractTextFromADF (some v)
        pure (some (JVal.str s))
      else pure (some v)
    | none => pure none
  return jsOr d1 .null

/-- Model of `extractCustomFields(fields)`: every member whose key starts with
`customfield_` and whose value is not `null`, in order. -/
def extractCustomFields (fields : JVal) : List (String × JVal) :=
  match fields with
  | .obj members => members.filter (fun kv => strStartsWith kv.1 "customfield_" && !isNull kv.2)
  | _ => []

/-- The defaulted fields object of an issue. -/
def fieldsOf (issue : JVal) : JVal :=
  jsOr (getF issue "fields") (.obj [])

/-- Model of `mapIssueToBug(issue)`: throws exactly when `issue` is `null`, when the
comment list or `components` is truthy and not an array, when one of their
elements is `null`, or when an ADF walk hits a `null` node or a truthy
non-array top-level `content`. -/
def mapIssueToBug (issue : JVal) : Except Unit MappedBug :=
  if isNull issue then .error () else do
    let fields := fieldsOf issue
    let comments ← collMap mkComment (chain (getF fields "comment") "comments")
    let description ← mapDescription (getF fields "description")
    let components ← collMap
      (fun c => if isNull c then .error () else .ok (getF c "name"))
      (getF fields "components")
    return { key := getF issue "key"
             id := getF issue "id"
             summary := jsOr (getF fields "summary") (.str "")
             description := description
             status := jsOr (chain (getF fields "status") "name") (.str "Unknown")
             resolution := jsOr (chain (getF fields "resolution") "name") .null
             priority := jsOr (chain (getF fields "priority") "name") .null
             components := components
             labels := jsOr (getF fields "labels") (.arr [])
             created := getF fields "created"
             updated := getF fields "updated"
             reporter := jsOr (chain (getF fields "reporter") "displayName") .null
             assignee := jsOr (chain (getF fields "assignee") "displayName") .null
             comments := comments
             failureType := jsOr (chain (getF fields "customfield_10165") "value") .null
             isEscapeBug := strictEqStr (chain (getF fields "customfield_10164") "value") "Yes"
             customerImpact := jsOr (chain (getF fields "customfield_10066") "value") .null
             customer := jsOr (chain (getF fields "customfield_10049") "value") .null
             severity := jsOr (chain (getF fields "customfield_10268") "value") .null
             customFields := extractCustomFields fields }

example :
    (mapIssueToBug (.obj [("key", .str "BUG-1")])).isOk = true := rfl

example :
    (mapIssueToBug (.obj [("fields", .obj [("components", .num 5)])])).isOk = false := rfl

/-! ## `enrichAnalysis` (services/claude.ts)

The input `records` list only ever has its `key` read (to build `bugMap`)
and its elements stored, so a record is modelled by its `key` plus its `id`
(standing for the rest of the payload, so that distinct records with equal
keys stay distinguishable). -/

/-- An already-mapped `JiraBug` as seen by `enrichAnalysis`. -/
structure Bug where
  key : String
  id : String
deriving DecidableEq, Repr

/-- The lookup `bugMap.get(k)` where `bugMap = new Map(bugs.map(b => [b.key, b]))`:
with duplicate keys the later entry overwrites the earlier one. -/
def bugMapGet (records : List Bug) (k : String) : Option Bug :=
  records.foldl (fun acc b => if b.key == k then some b else acc) none

/-- One listed bug key pushed through `bugMap.get` (a non-string key matches
nothing) — the callback of `cluster.bugKeys.map`, before `.filter(Boolean)`. -/
def resolveKey (records : List Bug) (k : JVal) : Option Bug :=
  match k with
  | .str s => bugMapGet records s
  | _ => none

/-- A normalized root-cause cluster. -/
structure ClusterE where
  id : Option JVal
  name : Option JVal
  description : Option JVal
  rootCause : Option JVal
  bugs : List Bug
  affectedComponents : JVal
  severity : JVal
  suggestedFix : Option JVal

/-- A normalized escape pattern. -/
structure EscapePatternE where
  category : JVal
  description : Option JVal
  bugKeys : JVal
  frequency : JVal

/-- A normalized suggested test scenario. -/
structure TestScenarioE where
  name : Option JVal
  description : Option JVal
  type : JVal
  targetBugs : JVal
  preconditions : JVal
  steps : JVal
  expectedOutcome : Option JVal
  priority : JVal

/-- A normalized testing gap. -/
structure TestingGapE where
  area : Option JVal
  description : Option JVal
  currentCoverage : JVal
  suggestedImprovement : Option JVal
  impactedBugCount : JVal

/-- A normalized defect injection point. -/
structure DefectInjectionPointE where
  phase : JVal
  description : JVal
  bugKeys : JVal
  frequency : JVal
  preventionStrategy : JVal

/-- A normalized component risk score. -/
structure ComponentRiskScoreE where
  component : JVal
  riskScore : JVal
  escapeHistory : JVal
  complexityFactor : JVal
  changeFrequency : JVal
  recommendation : JVal

/-- A normalized regression finding. -/
structure RegressionAnalysisE where
  isRegression : JVal
  bugKey : JVal
  relatedBugKeys : JVal
  regressionType : JVal
  likelyCause : JVal

/-- A normalized customer impact assessment. -/
structure CustomerImpactE where
  bugKey : JVal
  impactLevel : JVal
  affectedUsers : JVal
  businessFunction : JVal
  workaroundAvailable : JVal
  estimatedCost : JVal

/-- A normalized test data recommendation. -/
structure TestDataRecommendationE where
  category : JVal
  description : JVal
  dataPatterns : JVal
  edgeCases : JVal
  targetBugs : JVal
  priority : JVal

/-- A normalized process improvement. -/
structure ProcessImprovementE where
  area : JVal
  suggestion : JVal
  rationale : JVal
  targetBugs : JVal
  effort : JVal
  impact : JVal

/-- The normalized trend metrics block. -/
structure TrendMetricsE where
  period : JVal
  totalBugs : JVal
  escapesByCategory : JVal
  topComponents : JVal
  riskTrend : JVal
  comparisonToPrevious : JVal

/-- A normalized recommendation (structured shape). -/
structure RecommendationE where
  text : JVal
  reasoning : JVal
  targetBugs : JVal
  priority : JVal

/-- The normalized `PatternAnalysis` report. `recurringIssues` and
`componentHotspots` are passed through with only `|| []` applied, so they
stay raw values. The declared type additionally lists the
`automationOpportunities` and `linuxPortAnalysis` collections, which the
object literal returned by `enrichAnalysis` never mentions: reading those
properties of the returned object gives `undefined`, so they are modelled
as `Option JVal` fields that the normalizer leaves at `none`. -/
structure ReportE where
  rootCauseClusters : List ClusterE
  recurringIssues : JVal
  componentHotspots : JVal
  summary : JVal
  recommendations : List RecommendationE
  escapePatterns : List EscapePatternE
  suggestedTestScenarios : List TestScenarioE
  testingGaps : List TestingGapE
  defectInjectionPoints : List DefectInjectionPointE
  componentRiskScores : List ComponentRiskScoreE
  regressionAnalysis : List RegressionAnalysisE
  customerImpacts : List CustomerImpactE
  testDataRecommendations : List TestDataRecommendationE
  processImprovements : List ProcessImprovementE
  trendMetrics : TrendMetricsE
  automationOpportunities : Option JVal
  linuxPortAnalysis : Option JVal

/-- The `rootCauseClusters` callback: throws on a `null` element and on a
truthy non-array `bugKeys`; unresolved keys are dropped by
`.filter(Boolean)`. -/
def mkCluster (records : List Bug) (cv : JVal) : Except Unit ClusterE :=
  if isNull cv then .error () else
    match jsOr (getF cv "bugKeys") (.arr []) with
    | .arr keys =>
      .ok { id := getF cv "id"
            name := getF cv "name"
            description := getF cv "description"
            rootCause := getF cv "rootCause"
            bugs := keys.filterMap (resolveKey records)
            affectedComponents := jsOr (getF cv "affectedComponents") (.arr [])
            severity := jsOr (getF cv "severity") (.str "medium")
            suggestedFix := getF cv "suggestedFix" }
    | _ => .error ()

/-- The `escapePatterns` callback. -/
def mkEscape (pv : JVal) : Except Unit EscapePatternE :=
  if isNull pv then .error () else
    .ok { category := jsOr (getF pv "category") (.str "edge-case")
          description := getF pv "description"
          bugKeys := jsOr (getF pv "bugKeys") (.arr [])
          frequency := jsOr (getF pv "frequency") (.num 0) }

/-- The `suggestedTestScenarios` callback. -/
def mkScenario (sv : JVal) : Except Unit TestScenarioE :=
  if isNull sv then .error () else
    .ok { name := getF sv "name"
          description := getF sv "description"
          type := jsOr (getF sv "type") (.str "integration")
          targetBugs := jsOr (getF sv "targetBugs") (.arr [])
          preconditions := jsOr (getF sv "preconditions") (.arr [])
          steps := jsOr (getF sv "steps") (.arr [])
          expectedOutcome := getF sv "expectedOutcome"
          priority := jsOr (getF sv "priority") (.str "medium") }

/-- The `testingGaps` callback. -/
def mkGap (gv : JVal) : Except Unit TestingGapE :=
  if isNull gv then .error () else
    .ok { area := getF gv "area"
          description := getF gv "description"
          currentCoverage := jsOr (getF gv "currentCoverage") (.str "Unknown")
          suggestedImprovement := getF gv "suggestedImprovement"
          impactedBugCount := jsOr (getF gv "impactedBugCount") (.num 0) }

/-- The `defectInjectionPoints` callback. -/
def mkDefect (dv : JVal) : Except Unit DefectInjectionPointE :=
  if isNull dv then .error () else
    .ok { phase := jsOr (getF dv "phase") (.str "coding")
          description := jsOr (getF dv "description") (.str "")
          bugKeys := jsOr (getF dv "bugKeys") (.arr [])
          frequency := jsOr (getF dv "frequency") (.num 0)
          preventionStrategy := jsOr (getF dv "preventionStrategy") (.str "") }

/-- The `componentRiskScores` callback. -/
def mkRisk (rv : JVal) : Except Unit ComponentRiskScoreE :=
  if isNull rv then .error () else
    .ok { component := jsOr (getF rv "component") (.str "")
          riskScore := jsOr (getF rv "riskScore") (.num 0)
          escapeHistory := jsOr (getF rv "escapeHistory") (.num 0)
          complexityFactor := jsOr (getF rv "complexityFactor") (.str "medium")
          changeFrequency := jsOr (getF rv "changeFrequency") (.str "medium")
          recommendation := jsOr (getF rv "recommendation") (.str "") }

/-- The `regressionAnalysis` callback. -/
def mkRegression (rv : JVal) : Except Unit RegressionAnalysisE :=
  if isNull rv then .error () else
    .ok { isRegression := jsOr (getF rv "isRegression") (.bool false)
          bugKey := jsOr (getF rv "bugKey") (.str "")
          relatedBugKeys := jsOr (getF rv "relatedBugKeys") (.arr [])
          regressionType := jsOr (getF rv "regressionType") (.str "similar")
          likelyCause := jsOr (getF rv "likelyCause") (.str "") }

/-- The `customerImpacts` callback. -/
def mkImpact (iv : JVal) : Except Unit CustomerImpactE :=
  if isNull iv then .error () else
    .ok { bugKey := jsOr (getF iv "bugKey") (.str "")
          impactLevel := jsOr (getF iv "impactLevel") (.str "medium")
          affectedUsers := jsOr (getF iv "affectedUsers") (.str "some")
          businessFunction := jsOr (getF iv "businessFunction") (.str "")
          workaroundAvailable := jsOr (getF iv "workaroundAvailable") (.bool false)
          estimatedCost := jsOr (getF iv "estimatedCost") (.str "medium") }

/-- The `testDataRecommendations` callback. -/
def mkTestData (tv : JVal) : Except Unit TestDataRecommendationE :=
  if isNull tv then .error () else
    .ok { category := jsOr (getF tv "category") (.str "")
          description := jsOr (getF tv "description") (.str "")
          dataPatterns := jsOr (getF tv "dataPatterns") (.arr [])
          edgeCases := jsOr (getF tv "edgeCases") (.arr [])
          targetBugs := jsOr (getF tv "targetBugs") (.arr [])
          priority := jsOr (getF tv "priority") (.str "medium") }

/-- The `processImprovements` callback. -/
def mkProcess (pv : JVal) : Except Unit ProcessImprovementE :=
  if isNull pv then .error () else
    .ok { area := jsOr (getF pv "area") (.str "testing")
          suggestion := jsOr (getF pv "suggestion") (.str "")
          rationale := jsOr (getF pv "rationale") (.str "")
          targetBugs := jsOr (getF pv "targetBugs") (.arr [])
          effort := jsOr (getF pv "effort") (.str "medium")
          impact := jsOr (getF pv "impact") (.str "medium") }

/-- The `recommendations` callback: a bare string is the legacy shape. -/
def mkRecommendation (rv : JVal) : Except Unit RecommendationE :=
  if isStringV rv then
    .ok { text := rv
          reasoning := .str ""
          targetBugs := .arr []
          priority := .str "medium" }
  else if isNull rv then .error ()
  else
    .ok { text := jsOr (getF rv "text") (.str "")
          reasoning := jsOr (getF rv "reasoning") (.str "")
          targetBugs := jsOr (getF rv "targetBugs") (.arr [])
          priority := jsOr (getF rv "priority") (.str "medium") }

/-- The `trendMetrics` block, built with optional chaining (never throws
once `analysis` itself is known not to be `null`). -/
def mkTrend (a : JVal) (records : List Bug) : TrendMetricsE :=
  let tm := getF a "trendMetrics"
  { period := jsOr (chain tm "period") (.str "Current Period")
    totalBugs := jsOr (chain tm "totalBugs") (.num records.length)
    escapesByCategory := jsOr (chain tm "escapesByCategory") (.obj [])
    topComponents := jsOr (chain tm "topComponents") (.arr [])
    riskTrend := jsOr (chain tm "riskTrend") (.str "stable")
    comparisonToPrevious := jsOr (chain tm "comparisonToPrevious") (.str "") }

/-- Model of `enrichAnalysis(analysis, bugs)`: the collections are normalized in
source order (each one `(analysis.x || []).map(callback)`), then the report
object is assembled, passing `recurringIssues`, `componentHotspots` and
`summary` through with only `||` defaults. Throws exactly where the
JavaScript would: `analysis` itself `null`, a truthy non-array collection,
or a callback throwing. -/
def enrichAnalysis (a : JVal) (records : List Bug) : Except Unit ReportE :=
  if isNull a then .error () else do
    let rootCauseClusters ← collMap (mkCluster records) (getF a "rootCauseClusters")
    let escapePatterns ← collMap mkEscape (getF a "escapePatterns")
    let suggestedTestScenarios ← collMap mkScenario (getF a "suggestedTestScenarios")
    let testingGaps ← collMap mkGap (getF a "testingGaps")
    let defectInjectionPoints ← collMap mkDefect (getF a "defectInjectionPoints")
    let componentRiskScores ← collMap mkRisk (getF a "componentRiskScores")
    let regressionAnalysis ← collMap mkRegression (getF a "regressionAnalysis")
    let customerImpacts ← collMap mkImpact (getF a "customerImpacts")
    let testDataRecommendations ← collMap mkTestData (getF a "testDataRecommendations")
    let processImprovements ← collMap mkProcess (getF a "processImprovements")
    let recommendations ← collMap mkRecommendation (getF a "recommendations")
    return { rootCauseClusters := rootCauseClusters
             recurringIssues := jsOr (getF a "recurringIssues") (.arr [])
             componentHotspots := jsOr (getF a "componentHotspots") (.arr [])
             summary := jsOr (getF a "summary") (.str "")
             recommendations := recommendations
             escapePatterns := escapePatterns
             suggestedTestScenarios := suggestedTestScenarios
             testingGaps := testingGaps
             defectInjectionPoints := defectInjectionPoints
             componentRiskScores := componentRiskScores
             regressionAnalysis := regressionAnalysis
             customerImpacts := customerImpacts
             testDataRecommendations := testDataRecommendations
             processImprovements := processImprovements
             trendMetrics := mkTrend a records
             automationOpportunities := none
             linuxPortAnalysis := none }

example : (enrichAnalysis (.obj []) []).isOk = true := rfl

example :
    (enrichAnalysis (.obj [("rootCauseClusters",
        .arr [.obj [("severity", .str "banana")]])]) []).isOk = true := rfl

/-! ## Code-fence stripping and JSON parsing (`analyzeBugs`, services/claude.ts)

`analyzeBugs` trims the reply, strips a leading/trailing markdown code fence
when the trimmed text starts with one (the lead regex is
`/^\x60\x60\x60(?:json)?\s*\n?/` — the only language tag it removes is the
literal `json`), then hands the text to `JSON.parse`; a parse failure
propagates as a thrown error. `jsonParse` below models `JSON.parse`
(restricted to integer numeric literals, see the file header). -/

/-- A character of the regex class `\s` / trimmed by `String.prototype.trim`
(the ASCII portion, which is all the inputs under study use). -/
def isWsChar (c : Char) : Bool :=
  [' ', '\t', '\n', '\r', '\x0b', '\x0c'].contains c

/-- Drop leading `\s` characters. -/
def dropWsLead (cs : List Char) : List Char :=
  cs.dropWhile isWsChar

/-- The call `.replace(/^\x60\x60\x60(?:json)?\s*\n?/, '')`, at a call site where the
text is known to start with the fence: drop the three backticks, a literal
`json` tag when present, then all following whitespace (the greedy `\s*`
subsumes the optional newline). -/
def stripLeadFence (s : String) : String :=
  let cs := s.toList.drop 3
  let cs := if cs.take 4 = ['j', 's', 'o', 'n'] then cs.drop 4 else cs
  String.mk (dropWsLead cs)

/-- The call `.replace(/\n?\x60\x60\x60\s*$/, '')`: when the text ends with three
backticks followed only by whitespace, remove that tail together with one
optional newline right before the backticks; otherwise leave the text
unchanged. -/
def stripTrailFence (s : String) : String :=
  let rcs := (s.toList.reverse).dropWhile isWsChar
  if rcs.take 3 == "```".toList then
    let rest := rcs.drop 3
    let rest := if rest.take 1 == ['\n'] then rest.drop 1 else rest
    String.mk rest.reverse
  else s

/-- JavaScript `trim` (ASCII whitespace). -/
def jsTrim (s : String) : String :=
  String.mk ((((s.toList.reverse).dropWhile isWsChar).reverse).dropWhile isWsChar)

/-- The de-fencing step of `analyzeBugs`: trim, and if the text starts with
a code fence apply both `replace` calls. -/
def deFence (raw : String) : String :=
  let t := jsTrim raw
  if strStartsWith t "```" then stripTrailFence (stripLeadFence t) else t

/-- Numeric value of a hex digit, via the code point. -/
def hexDigit? (c : Char) : Option Nat :=
  let n := c.toNat
  if 48 ≤ n && n ≤ 57 then some (n - 48)
  else if 97 ≤ n && n ≤ 102 then some (n - 87)
  else if 65 ≤ n && n ≤ 70 then some (n - 55)
  else none

/-- Is the character a decimal digit (code points 48-57)? -/
def isDigitC (c : Char) : Bool :=
  48 ≤ c.toNat && c.toNat ≤ 57

/-- A JSON insignificant-whitespace character. -/
def isJsonWs (c : Char) : Bool :=
  [' ', '\t', '\n', '\r'].contains c

/-- Skip JSON insignificant whitespace. -/
def skipWs (cs : List Char) : List Char :=
  cs.dropWhile isJsonWs

/-- The body of a JSON string literal, after the opening quote. Handles the
escape sequences of RFC 8259; rejects raw control characters. -/
def pStrBody (acc : List Char) : List Char → Option (String × List Char)
  | [] => none
  | '"' :: rest => some (String.mk acc.reverse, rest)
  | '\\' :: rest =>
    match rest with
    | '"' :: r => pStrBody ('"' :: acc) r
    | '\\' :: r => pStrBody ('\\' :: acc) r
    | '/' :: r => pStrBody ('/' :: acc) r
    | 'b' :: r => pStrBody ('\x08' :: acc) r
    | 'f' :: r => pStrBody ('\x0c' :: acc) r
    | 'n' :: r => pStrBody ('\n' :: acc) r
    | 'r' :: r => pStrBody ('\r' :: acc) r
    | 't' :: r => pStrBody ('\t' :: acc) r
    | 'u' :: h1 :: h2 :: h3 :: h4 :: r =>
      match hexDigit? h1, hexDigit? h2, hexDigit? h3, hexDigit? h4 with
      | some a, some b, some c, some d =>
        pStrBody (Char.ofNat (((a * 16 + b) * 16 + c) * 16 + d) :: acc) r
      | _, _, _, _ => none
    | _ => none
  | c :: rest => if c.toNat < 32 then none else pStrBody (c :: acc) rest

/-- Split a maximal run of decimal digits off the front. -/
def digitSpan (cs : List Char) : List Char × List Char :=
  (cs.takeWhile isDigitC, cs.dropWhile isDigitC)

/-- Accumulate the decimal value of a digit run. -/
def digitsVal : Nat → List Char → Nat
  | acc, [] => acc
  | acc, c :: cs => digitsVal (acc * 10 + (c.toNat - 48)) cs

/-- Digits to a natural number. -/
def digitsToNat (ds : List Char) : Nat :=
  digitsVal 0 ds

/-- A JSON integer literal (this model rejects fraction/exponent parts, see
the file header). -/
def pNum (cs : List Char) : Option (Int × List Char) :=
  let (neg, cs1) : Bool × List Char :=
    match cs with
    | '-' :: r => (true, r)
    | _ => (false, cs)
  match cs1 with
  | '0' :: r =>
    (match r with
     | c :: _ => if isDigitC c || c == '.' || c == 'e' || c == 'E' then none else some (0, r)
     | [] => some (0, r))
  | c :: r =>
    if isDigitC c && c != '0' then
      let (ds, rest) := digitSpan (c :: r)
      match rest with
      | c2 :: _ =>
        if c2 == '.' || c2 == 'e' || c2 == 'E' then none
        else some (if neg then -(digitsToNat ds : Int) else (digitsToNat ds : Int), rest)
      | [] => some (if neg then -(digitsToNat ds : Int) else (digitsToNat ds : Int), rest)
    else none
  | [] => none

/-- Insert a member into an object under construction with `JSON.parse`'s
duplicate-key behaviour: a repeated key overwrites the value at the original
position. -/
def insertField (members : List (String × JVal)) (k : String) (v : JVal) :
    List (String × JVal) :=
  if members.any (fun kv => kv.1 == k) then
    members.map (fun kv => if kv.1 == k then (k, v) else kv)
  else members ++ [(k, v)]

mutual

/-- One JSON value. The fuel only bounds recursion depth; `jsonParse` feeds
it enough for any input of the given length. -/
def pVal (fuel : Nat) (cs : List Char) : Option (JVal × List Char) :=
  match fuel with
  | 0 => none
  | fuel + 1 =>
    match skipWs cs with
    | '{' :: rest => pMembersFirst fuel rest
    | '[' :: rest => pElemsFirst fuel rest
    | '"' :: rest => (pStrBody [] rest).map (fun sr => (.str sr.1, sr.2))
    | 't' :: 'r' :: 'u' :: 'e' :: rest => some (.bool true, rest)
    | 'f' :: 'a' :: 'l' :: 's' :: 'e' :: rest => some (.bool false, rest)
    | 'n' :: 'u' :: 'l' :: 'l' :: rest => some (.null, rest)
    | other => (pNum other).map (fun nr => (.num nr.1, nr.2))

/-- Array elements, directly after `[`. -/
def pElemsFirst (fuel : Nat) (cs : List Char) : Option (JVal × List Char) :=
  match fuel with
  | 0 => none
  | fuel + 1 =>
    match skipWs cs with
    | ']' :: rest => some (.arr [], rest)
    | other =>
      match pVal fuel other with
      | some (v, rest) => pElemsTail fuel rest [v]
      | none => none

/-- Array elements after at least one element. -/
def pElemsTail (fuel : Nat) (cs : List Char) (acc : List JVal) : Option (JVal × List Char) :=
  match fuel with
  | 0 => none
  | fuel + 1 =>
    match skipWs cs with
    | ']' :: rest => some (.arr acc, rest)
    | ',' :: rest =>
      match pVal fuel rest with
      | some (v, rest2) => pElemsTail fuel rest2 (acc ++ [v])
      | none => none
    | _ => none

/-- Object members, directly after `{`. -/
def pMembersFirst (fuel : Nat) (cs : List Char) : Option (JVal × List Char) :=
  match fuel with
  | 0 => none
  | fuel + 1 =>
    match skipWs cs with
    | '}' :: rest => some (.obj [], rest)
    | '"' :: rest =>
      match pStrBody [] rest with
      | some (k, rest2) =>
        match skipWs rest2 with
        | ':' :: rest3 =>
          match pVal fuel rest3 with
          | some (v, rest4) => pMembersTail fuel rest4 (insertField [] k v)
          | none => none
        | _ => none
      | none => none
    | _ => none

/-- Object members after at least one member. -/
def pMembersTail (fuel : Nat) (cs : List Char) (acc : List (String × JVal)) :
    Option (JVal × List Char) :=
  match fuel with
  | 0 => none
  | fuel + 1 =>
    match skipWs cs with
    | '}' :: rest => some (.obj acc, rest)
    | ',' :: rest =>
      match skipWs rest with
      | '"' :: rest2 =>
        match pStrBody [] rest2 with
        | some (k, rest3) =>
          match skipWs rest3 with
          | ':' :: rest4 =>
            match pVal fuel rest4 with
            | some (v, rest5) => pMembersTail fuel rest5 (insertField acc k v)
            | none => none
          | _ => none
        | none => none
      | _ => none
    | _ => none

end

/-- Model of `JSON.parse` (on this model's value domain): one complete JSON document,
possibly surrounded by whitespace; anything else is a parse failure. -/
def jsonParse (s : String) : Option JVal :=
  match pVal (2 * s.length + 8) s.toList with
  | some (v, rest) => if skipWs rest = [] then some v else none
  | none => none

/-- The raw-reply processing of `analyzeBugs`, from the reply text onward:
de-fence, `JSON.parse` (a failure is a thrown `SyntaxError`, i.e. an error
propagated to the caller), then `enrichAnalysis`. -/
def analyzeBugs (raw : String) (records : List Bug) : Except Unit ReportE :=
  match jsonParse (deFence raw) with
  | none => .error ()
  | some v => enrichAnalysis v records

example : jsonParse "not json" = none := rfl
example : jsonParse " \x7b\"a\": [1, -2, null, \"x\"]\x7d " =
    some (.obj [("a", .arr [.num 1, .num (-2), .null, .str "x"])]) := rfl
example : deFence "```json\n\x7b\"a\":1\x7d\n```" = "\x7b\"a\":1\x7d" := rfl
example : deFence "```javascript\n\x7b\x7d\n```" = "javascript\n\x7b\x7d" := rfl
example : (analyzeBugs "```json\n\x7b\x7d\n```" []).isOk = true := rfl
example : (analyzeBugs "```javascript\n\x7b\x7d\n```" []).isOk = false := rfl

/-! ## The retrieval engine (services/jira.ts)

The network is modelled as an environment: the successive responses of the
`/search/jql` endpoint for the query in use are a list of `SearchPage`s
(already parsed: `response.ok`, `(data.issues || []).map(i => i.id)`,
`data.nextPageToken || null`, truthiness of `data.isLast`), and hydration
(`fetchIssueById`, which catches every failure internally and returns
`null`) is a function `String → Option α`. The element type is abstract:
the loop never inspects the hydrated records. -/

/-- One parsed response of the paginated ID search. -/
structure SearchPage where
  ok : Bool
  issues : List String
  nextPageToken : Option String
  isLast : Bool

/-- How a modelled `fetch` call fails. -/
inductive FetchError where
  /-- A search page request returned a non-success status: the loop throws. -/
  | searchPage
  /-- The filter-lookup request of `fetchBugsByFilter` returned a non-success
  status: the call throws before searching. -/
  | filterLookup
  /-- The loop asked for a page beyond the modelled response list (a finite
  model artefact; a real server always answers). -/
  | noResponse
deriving DecidableEq, Repr

/-- The inner `for (const issueId of issueIds)` loop: stop as soon as the
accumulated count reaches `maxResults`, push a successful hydration, skip a
failed one (`fetchIssueById` returned `null`). -/
def hydratePage {α : Type} (hydrate : String → Option α) (maxResults : Nat) :
    List String → List α → List α
  | [], acc => acc
  | i :: rest, acc =>
    if acc.length ≥ maxResults then acc
    else
      match hydrate i with
      | some b => hydratePage hydrate maxResults rest (acc ++ [b])
      | none => hydratePage hydrate maxResults rest acc

/-- The `do ... while (nextPageToken)` loop of `fetchBugsWithJqlEndpoint`:
throw on a failed page request; hydrate the page's IDs; stop after the page
when `data.isLast` is truthy or `maxResults` is reached; otherwise continue
exactly when a continuation token came back. -/
def fetchLoop {α : Type} (hydrate : String → Option α) (maxResults : Nat) :
    List SearchPage → List α → Except FetchError (List α)
  | [], _ => .error .noResponse
  | p :: rest, acc =>
    if !p.ok then .error .searchPage
    else
      let acc' := hydratePage hydrate maxResults p.issues acc
      if p.isLast || acc'.length ≥ maxResults then .ok acc'
      else
        match p.nextPageToken with
        | none => .ok acc'
        | some _ => fetchLoop hydrate maxResults rest acc'

/-- Model of `fetchBugsWithJqlEndpoint(jql, maxResults)` for a given response
sequence: run the loop with an empty accumulator. -/
def fetchBugsWithJqlEndpoint {α : Type} (hydrate : String → Option α) (maxResults : Nat)
    (pages : List SearchPage) : Except FetchError (List α) :=
  fetchLoop hydrate maxResults pages []

/-- The `(records accumulated so far, maxResults requested in the URL)` pair
of every page request the loop issues, in order: the URL carries
`Math.min(50, maxResults - bugs.length)`. -/
def fetchRequests {α : Type} (hydrate : String → Option α) (maxResults : Nat) :
    List SearchPage → List α → List (Nat × Int)
  | [], acc => [(acc.length, min 50 ((maxResults : Int) - acc.length))]
  | p :: rest, acc =>
    let req := (acc.length, min 50 ((maxResults : Int) - acc.length))
    if !p.ok then [req]
    else
      let acc' := hydratePage hydrate maxResults p.issues acc
      if p.isLast || acc'.length ≥ maxResults then [req]
      else
        match p.nextPageToken with
        | none => [req]
        | some _ => req :: fetchRequests hydrate maxResults rest acc'

/-- The environment a `fetchBugs` call runs against: the stored JQL of each
saved filter (`none` models a failed filter-lookup request), the page
responses the search endpoint produces for each JQL string, and the
hydration outcomes. -/
structure JiraEnv (α : Type) where
  filterJql : String → Option String
  pages : String → List SearchPage
  hydrate : String → Option α

/-- Model of `buildJql(project?)`. -/
def buildJql (project : Option String) : String :=
  let conditions := ["type = Bug"] ++
    (match project with
     | some p => ["project = \"" ++ p ++ "\""]
     | none => [])
  String.intercalate " AND " conditions ++ " ORDER BY created DESC"

/-- The options record of `fetchBugs`. -/
structure FetchOptions where
  project : Option String := none
  jql : Option String := none
  filterId : Option String := none
  maxResults : Option Nat := none

/-- Model of `fetchBugsByFilter(filterId, maxResults)`: look the filter's JQL up
(throwing on failure), then run the JQL endpoint. -/
def fetchBugsByFilter {α : Type} (env : JiraEnv α) (filterId : String) (maxResults : Nat) :
    Except FetchError (List α) :=
  match env.filterJql filterId with
  | none => .error .filterLookup
  | some jql => fetchBugsWithJqlEndpoint env.hydrate maxResults (env.pages jql)

/-- Truthiness of an optional string option (`undefined` and `''` are
falsy). -/
def strOptTruthy : Option String → Bool
  | some s => s != ""
  | none => false

/-- Model of `fetchBugs(options)`: `maxResults = options.maxResults || 100` (so `0`
and absence both become 100), then route on a truthy `filterId`, else on a
truthy `jql`, else build one from the project key. -/
def fetchBugs {α : Type} (env : JiraEnv α) (o : FetchOptions) : Except FetchError (List α) :=
  let maxResults : Nat :=
    match o.maxResults with
    | some n => if n == 0 then 100 else n
    | none => 100
  if strOptTruthy o.filterId then
    fetchBugsByFilter env (o.filterId.getD "") maxResults
  else
    let jql :=
      match o.jql with
      | some j => if j != "" then j else buildJql o.project
      | none => buildJql o.project
    fetchBugsWithJqlEndpoint env.hydrate maxResults (env.pages jql)

/-! ## The rich-document tree of the specification (§4.1)

For the flattening claim, the specification's description of the walk is
formalized on a clean tree datatype and compared with the code model
`extractTextFromADF` through the JSON encoding of such a tree. -/

/-- A rich-document node as the specification describes it: a text leaf with
its literal text, or an element of some kind with an optional child list. -/
inductive ADFNode where
  | text (s : String)
  | elem (kind : String) (content : Option (List ADFNode))

mutual

/-- The JSON shape of a rich-document node. -/
def adfToJson : ADFNode → JVal
  | .text s => .obj [("type", .str "text"), ("text", .str s)]
  | .elem kind none => .obj [("type", .str kind)]
  | .elem kind (some cs) => .obj [("type", .str kind), ("content", .arr (adfToJsonList cs))]

/-- The JSON shapes of a child list. -/
def adfToJsonList : List ADFNode → List JVal
  | [] => []
  | n :: ns => adfToJson n :: adfToJsonList ns

end

mutual

/-- Modelled from the spec: the contribution of one node per §4.1 — a node
of kind `text` contributes its literal text (the empty string when the leaf
carries none), any other node with a content child list contributes the
concatenation of its children's contributions, and every other node
contributes the empty string. -/
def specNodeText : ADFNode → String
  | .text s => s
  | .elem _ none => ""
  | .elem kind (some cs) => if kind == "text" then "" else specListText cs

/-- Modelled from the spec: concatenation of the children's contributions. -/
def specListText : List ADFNode → String
  | [] => ""
  | n :: ns => specNodeText n ++ specListText ns

end

/-- Joining a list of strings with a separator. -/
def joinStrs (sep : String) : List String → String
  | [] => ""
  | [s] => s
  | s :: ss => s ++ sep ++ joinStrs sep ss

/-- Modelled from the spec: a whole document — top-level siblings joined
with newlines, a document with no content yielding the empty string. -/
def specDocText : Option (List ADFNode) → String
  | none => ""
  | some tops => joinStrs "\n" (tops.map specNodeText)

/-- The JSON shape of a whole document. -/
def adfDocToJson : Option (List ADFNode) → JVal
  | none => .obj []
  | some tops => .obj [("content", .arr (adfToJsonList tops))]

/-! ## Lemmas about the pagination loop -/

/-- A full accumulator is returned unchanged by the hydration loop. -/
theorem hydratePage_of_full {α : Type} (hydrate : String → Option α) (m : Nat)
    (ids : List String) (acc : List α) (h : acc.length ≥ m) :
    hydratePage hydrate m ids acc = acc := by
  cases ids with
  | nil => rfl
  | cons i rest => simp [hydratePage, h]

/-- The hydration loop never grows the accumulator past `maxResults`. -/
theorem hydratePage_length_le {α : Type} (hydrate : String → Option α) (m : Nat)
    (ids : List String) (acc : List α) (h : acc.length ≤ m) :
    (hydratePage hydrate m ids acc).length ≤ m := by
  induction ids generalizing acc with
  | nil => simpa [hydratePage] using h
  | cons i rest ih =>
    by_cases hfull : acc.length ≥ m
    · simpa [hydratePage, hfull] using h
    · have hlt : acc.length < m := Nat.lt_of_not_le hfull
      cases hh : hydrate i with
      | some b =>
        have : (acc ++ [b]).length ≤ m := by
          simpa [List.length_append] using Nat.succ_le_of_lt hlt
        simpa [hydratePage, hfull, hh] using ih (acc ++ [b]) this
      | none => simpa [hydratePage, hfull, hh] using ih acc h

/-- Identifiers whose hydration fails are no-ops: hydrating a page is the
same as hydrating only its hydratable identifiers. -/
theorem hydratePage_filter {α : Type} (hydrate : String → Option α) (m : Nat)
    (ids : List String) (acc : List α) :
    hydratePage hydrate m ids acc =
      hydratePage hydrate m (ids.filter (fun i => (hydrate i).isSome)) acc := by
  induction ids generalizing acc with
  | nil => rfl
  | cons i rest ih =>
    by_cases hfull : acc.length ≥ m
    · rw [hydratePage_of_full _ _ _ _ hfull, hydratePage_of_full _ _ _ _ hfull]
    · cases hh : hydrate i with
      | some b => simp [hydratePage, List.filter, hh, hfull, ih]
      | none => simp [hydratePage, List.filter, hh, hfull, ih]

/-- The loop preserves the `maxResults` bound. -/
theorem fetchLoop_length_le {α : Type} (hydrate : String → Option α) (m : Nat)
    (pages : List SearchPage) (acc l : List α) (hacc : acc.length ≤ m)
    (h : fetchLoop hydrate m pages acc = .ok l) : l.length ≤ m := by
  induction pages generalizing acc with
  | nil => simp [fetchLoop] at h
  | cons p rest ih =>
    by_cases hok : p.ok
    · have hlen := hydratePage_length_le hydrate m p.issues acc hacc
      by_cases hstop : p.isLast || (hydratePage hydrate m p.issues acc).length ≥ m
      · simp [fetchLoop, hok, hstop] at h
        simpa [← h] using hlen
      · cases ht : p.nextPageToken with
        | none =>
          simp [fetchLoop, hok, hstop, ht] at h
          simpa [← h] using hlen
        | some t =>
          simp [fetchLoop, hok, hstop, ht] at h
          exact ih _ hlen h
    · simp [fetchLoop, hok] at h

/-- Every request the loop issues carries
`maxResults = min(50, maxResults - accumulated)` with the accumulated count
within bounds. -/
theorem fetchRequests_facts {α : Type} (hydrate : String → Option α) (m : Nat)
    (pages : List SearchPage) (acc : List α) (hacc : acc.length ≤ m) :
    ∀ pr ∈ fetchRequests hydrate m pages acc,
      pr.1 ≤ m ∧ pr.2 = min 50 ((m : Int) - pr.1) := by
  induction pages generalizing acc with
  | nil =>
    intro pr hpr
    simp [fetchRequests] at hpr
    simp [hpr, hacc]
  | cons p rest ih =>
    intro pr hpr
    by_cases hok : p.ok
    · have hlen := hydratePage_length_le hydrate m p.issues acc hacc
      by_cases hstop : p.isLast || (hydratePage hydrate m p.issues acc).length ≥ m
      · simp [fetchRequests, hok, hstop] at hpr
        simp [hpr, hacc]
      · cases ht : p.nextPageToken with
        | none =>
          simp [fetchRequests, hok, hstop, ht] at hpr
          simp [hpr, hacc]
        | some t =>
          simp [fetchRequests, hok, hstop, ht] at hpr
          rcases hpr with hpr | hpr
          · simp [hpr, hacc]
          · exact ih _ hlen pr hpr
    · simp [fetchRequests, hok] at hpr
      simp [hpr, hacc]

/-- C2. `maxResults` is an upper bound: whenever the JQL-endpoint fetch
returns a record list, its length is at most `maxResults`; and every page
request it issued asked for `min(50, maxResults - accumulated)` results,
with the accumulated count itself never exceeding `maxResults`. -/
theorem fetch_maxResults_upper_bound {α : Type} (hydrate : String → Option α)
    (m : Nat) (pages : List SearchPage) (l : List α)
    (h : fetchBugsWithJqlEndpoint hydrate m pages = .ok l) :
    l.length ≤ m ∧
      ∀ pr ∈ fetchRequests hydrate m pages ([] : List α),
        pr.1 ≤ m ∧ pr.2 = min 50 ((m : Int) - pr.1) ∧ pr.2 ≤ 50 := by
  refine ⟨fetchLoop_length_le hydrate m pages [] l (by simp) h, ?_⟩
  intro pr hpr
  have hf := fetchRequests_facts hydrate m pages [] (by simp) pr hpr
  exact ⟨hf.1, hf.2, by simp [hf.2]⟩

theorem fetch_maxResults_upper_bound_witness :
    (fetchBugsWithJqlEndpoint (fun i => some i) 1
        [⟨true, ["a", "b"], none, true⟩] = .ok ["a"]) ∧
      ["a"].length ≤ 1 := by
  refine ⟨rfl, ?_⟩
  exact (fetch_maxResults_upper_bound (fun i => some i) 1
    [⟨true, ["a", "b"], none, true⟩] ["a"] rfl).1

/-- C3. Hydration failures do not abort retrieval: the loop's result is the
same as if the identifiers whose hydration fails were never listed (they are
skipped, every other identifier's record is kept). In particular, for a
single last page listing IDs "1" and "2", where "1" hydrates to the record
with key "BUG-1" and "2" fails, `fetchBugs` returns exactly that one
record. -/
theorem hydration_failure_skip :
    (∀ (α : Type) (hydrate : String → Option α) (m : Nat) (pages : List SearchPage)
        (acc : List α),
        fetchLoop hydrate m pages acc =
          fetchLoop hydrate m
            (pages.map (fun p => { p with issues := p.issues.filter (fun i => (hydrate i).isSome) }))
            acc) ∧
      fetchBugs (α := Bug)
          ⟨fun _ => none, fun _ => [⟨true, ["1", "2"], none, true⟩],
           fun i => if i == "1" then some ⟨"BUG-1", "1"⟩ else none⟩
          {} = .ok [⟨"BUG-1", "1"⟩] := by
  refine ⟨?_, rfl⟩
  intro α hydrate m pages acc
  induction pages generalizing acc with
  | nil => rfl
  | cons p rest ih =>
    by_cases hok : p.ok
    · simp only [List.map_cons, fetchLoop, hok, Bool.not_true, Bool.false_eq_true, if_false,
        ← hydratePage_filter]
      by_cases hstop : p.isLast || (hydratePage hydrate m p.issues acc).length ≥ m
      · simp [hstop]
      · cases ht : p.nextPageToken with
        | none => simp [hstop, ht]
        | some t => simp [hstop, ht, ih]
    · simp [fetchLoop, hok]

/-- C4. A failed search-page request aborts the whole call: whatever was
already accumulated (`acc`), the loop returns the search-page error, never a
record list. -/
theorem search_page_failure_all_or_nothing :
    ∀ (α : Type) (hydrate : String → Option α) (m : Nat) (p : SearchPage)
      (rest : List SearchPage) (acc : List α), p.ok = false →
      fetchLoop hydrate m (p :: rest) acc = .error .searchPage := by
  intro α hydrate m p rest acc h
  simp [fetchLoop, h]

theorem search_page_failure_all_or_nothing_witness :
    (SearchPage.ok ⟨false, ["1"], some "t", false⟩ = false) ∧
      fetchLoop (fun i => some i) 10 [⟨false, ["1"], some "t", false⟩]
        ["already", "accumulated"] = .error .searchPage :=
  ⟨rfl, search_page_failure_all_or_nothing String (fun i => some i) 10
    ⟨false, ["1"], some "t", false⟩ [] ["already", "accumulated"] rfl⟩

/-- C9. The pagination loop stops with the page that terminates it: when a
page fails, sets `isLast`, returns no continuation token, or fills the
accumulator to `maxResults`, the pages after it are irrelevant — both the
loop's result and the requests it issues are those of the truncated
sequence. -/
theorem pagination_stops_at_terminal_page :
    ∀ (α : Type) (hydrate : String → Option α) (m : Nat) (p : SearchPage)
      (rest : List SearchPage) (acc : List α),
      (p.ok = false ∨ p.isLast = true ∨ p.nextPageToken = none ∨
        m ≤ (hydratePage hydrate m p.issues acc).length) →
      fetchLoop hydrate m (p :: rest) acc = fetchLoop hydrate m [p] acc ∧
        fetchRequests hydrate m (p :: rest) acc = fetchRequests hydrate m [p] acc := by
  intro α hydrate m p rest acc h
  by_cases hok : p.ok
  · by_cases hstop : p.isLast || (hydratePage hydrate m p.issues acc).length ≥ m
    · constructor <;> simp [fetchLoop, fetchRequests, hok, hstop]
    · have ht : p.nextPageToken = none := by
        rcases h with h | h | h | h
        · exact absurd h (by simp [hok])
        · exact absurd hstop (by simp [h])
        · exact h
        · exact absurd hstop (by simp [GE.ge, h])
      constructor <;> simp [fetchLoop, fetchRequests, hok, hstop, ht]
  · constructor <;> simp [fetchLoop, fetchRequests, hok]

theorem pagination_stops_at_terminal_page_witness :
    (SearchPage.isLast ⟨true, ["a"], some "t", true⟩ = true) ∧
      fetchLoop (fun i => some i) 5 [⟨true, ["a"], some "t", true⟩, ⟨true, ["z"], none, true⟩] [] =
        fetchLoop (fun i => some i) 5 [(⟨true, ["a"], some "t", true⟩ : SearchPage)] [] ∧
      fetchRequests (fun i => some i) 5
          [⟨true, ["a"], some "t", true⟩, ⟨true, ["z"], none, true⟩] ([] : List String) =
        fetchRequests (fun i => some i) 5 [(⟨true, ["a"], some "t", true⟩ : SearchPage)] [] :=
  ⟨rfl, pagination_stops_at_terminal_page String (fun i => some i) 5
    ⟨true, ["a"], some "t", true⟩ [⟨true, ["z"], none, true⟩] [] (Or.inr (Or.inl rfl))⟩

/-- C10. A falsy `maxResults` (absent or `0`) behaves as `100`:
`fetchBugs` with `maxResults: 0` or no `maxResults` equals `fetchBugs` with
`maxResults: 100`, and in particular a `maxResults = 0` call can return a
non-empty list (up to 100 records). -/
theorem fetchBugs_falsy_maxResults_defaults_to_100 :
    (∀ (α : Type) (env : JiraEnv α) (proj jql fid : Option String),
        fetchBugs env ⟨proj, jql, fid, some 0⟩ = fetchBugs env ⟨proj, jql, fid, some 100⟩ ∧
          fetchBugs env ⟨proj, jql, fid, none⟩ = fetchBugs env ⟨proj, jql, fid, some 100⟩) ∧
      fetchBugs (α := String)
          ⟨fun _ => none, fun _ => [⟨true, ["1", "2"], none, true⟩], fun i => some i⟩
          ⟨none, none, none, some 0⟩ = .ok ["1", "2"] :=
  ⟨fun _ _ _ _ _ => ⟨rfl, rfl⟩, rfl⟩

/-! ## C7: the tree walk agrees with the specification's description -/

/-- Appending the empty string is the identity. -/
theorem str_append_empty (s : String) : s ++ "" = s := by
  cases s with
  | mk data => show String.mk (data ++ []) = String.mk data; rw [List.append_nil]

/-- Joining string values is joining the strings. -/
theorem joinVals_strs (sep : String) : ∀ ss : List String,
    joinVals sep (ss.map JVal.str) = joinStrs sep ss
  | [] => rfl
  | [_] => rfl
  | s :: s2 :: ss => by
    show s ++ sep ++ joinVals sep ((s2 :: ss).map JVal.str) = s ++ sep ++ joinStrs sep (s2 :: ss)
    rw [joinVals_strs sep (s2 :: ss)]

/-- Joining with the empty separator is concatenation. -/
theorem joinStrs_empty : ∀ ss : List String, joinStrs "" ss = ss.foldr (· ++ ·) ""
  | [] => rfl
  | [s] => by
    show s = s ++ ""
    rw [str_append_empty]
  | s :: s2 :: ss => by
    show s ++ "" ++ joinStrs "" (s2 :: ss) = s ++ (s2 :: ss).foldr (· ++ ·) ""
    rw [str_append_empty, joinStrs_empty (s2 :: ss)]

/-- Monadic bind on a successful `Except` computation. -/
@[simp] theorem exBind_ok {α β : Type} (x : α) (f : α → Except Unit β) :
    (Except.ok x >>= f : Except Unit β) = f x := rfl

/-- Joining string-constructor images is joining the underlying strings. -/
theorem joinVals_map_str {γ : Type} (sep : String) (f : γ → String) (l : List γ) :
    joinVals sep (l.map (fun n => JVal.str (f n))) = joinStrs sep (l.map f) := by
  have hm : l.map (fun n => JVal.str (f n)) = (l.map f).map JVal.str := by
    rw [List.map_map]; rfl
  rw [hm, joinVals_strs]

/-- The spec's concatenation of child contributions, as a fold. -/
theorem specListText_eq_foldr : ∀ cs : List ADFNode,
    specListText cs = (cs.map specNodeText).foldr (· ++ ·) ""
  | [] => rfl
  | n :: ns => by
    show specNodeText n ++ specListText ns = specNodeText n ++ (ns.map specNodeText).foldr (· ++ ·) ""
    rw [specListText_eq_foldr ns]

mutual

/-- The code's node walk computes the spec's node contribution on the JSON
shape of any tree. -/
theorem exText_adfToJson : ∀ n : ADFNode, exText (adfToJson n) = .ok (.str (specNodeText n))
  | .text s => by
    by_cases h : s = ""
    · subst h; rfl
    · simp [adfToJson, exText, getF, List.find?, strictEqStr, jsOr, truthy, specNodeText, h]
  | .elem k none => by
    by_cases h : k = "text"
    · subst h; rfl
    · simp [adfToJson, exText, exObjContent, getF, List.find?, strictEqStr, specNodeText, h]
  | .elem k (some cs) => by
    by_cases h : k = "text"
    · subst h; rfl
    · have hlist := exTextList_adfToJsonList cs
      simp only [adfToJson, exText, exObjContent, getF, List.find?, strictEqStr, specNodeText, h]
      simp [hlist, specListText_eq_foldr, h]
      rw [joinVals_map_str, joinStrs_empty]

/-- The code's list walk computes the spec's contributions pointwise. -/
theorem exTextList_adfToJsonList : ∀ ns : List ADFNode,
    exTextList (adfToJsonList ns) = .ok (ns.map (fun n => JVal.str (specNodeText n)))
  | [] => rfl
  | n :: ns => by
    simp [adfToJsonList, exTextList, exText_adfToJson n, exTextList_adfToJsonList ns, exBind_ok]

end

/-- C7. The rich-document flattening computes exactly the specification's
semantics on every document tree: text nodes contribute their literal text,
nodes with a content child list contribute the concatenation of their
children, every other node contributes the empty string, top-level siblings
are joined with newlines, and a document with no content yields the empty
string. -/
theorem extractTextFromADF_meets_spec :
    ∀ doc : Option (List ADFNode),
      extractTextFromADF (some (adfDocToJson doc)) = .ok (specDocText doc)
  | none => rfl
  | some tops => by
    simp [adfDocToJson, extractTextFromADF, truthy, getF, List.find?,
      exTextList_adfToJsonList tops, specDocText]
    rw [joinVals_map_str]

/-! ## C5: de-fencing and parse failure -/

/-- C5 counterexample. The claim covers "any language tag, not only json",
but the lead-strip regex removes only a literal `json` tag: the very same
fenced, valid-JSON payload is accepted with tag `json` and rejected (the
call errors) with tag `javascript`, because the tag text is left in front
of the payload. -/
theorem analyzeBugs_language_tag_counterexample :
    (analyzeBugs "```javascript\n\x7b\x7d\n```" [] = .error ()) ∧
      (analyzeBugs "```json\n\x7b\x7d\n```" []).isOk = true ∧
      deFence "```javascript\n\x7b\x7d\n```" = "javascript\n\x7b\x7d" ∧
      jsonParse "\x7b\x7d" = some (.obj []) :=
  ⟨rfl, rfl, rfl, rfl⟩

/-- C5 (amended). After trimming, a leading code fence (with at most a
literal `json` language tag) and a trailing fence are stripped; if the
remaining text does not parse as a JSON document the call errors (no report
of any kind), and otherwise the parsed value is handed to `enrichAnalysis`;
the bare input "not json" errors, and a fenced payload with the `json` tag
is accepted. A fence with any other language tag is not stripped of its tag
(see the counterexample). -/
theorem analyzeBugs_parse_failure_is_error :
    (∀ (raw : String) (records : List Bug),
        jsonParse (deFence raw) = none → analyzeBugs raw records = .error ()) ∧
      (∀ (raw : String) (records : List Bug) (v : JVal),
        jsonParse (deFence raw) = some v → analyzeBugs raw records = enrichAnalysis v records) ∧
      analyzeBugs "not json" [] = .error () ∧
      deFence "```json\n\x7b\"a\":1\x7d\n```" = "\x7b\"a\":1\x7d" ∧
      (analyzeBugs "```json\n\x7b\"a\":1\x7d\n```" []).isOk = true := by
  refine ⟨?_, ?_, rfl, rfl, rfl⟩
  · intro raw records h
    simp [analyzeBugs, h]
  · intro raw records v h
    simp [analyzeBugs, h]

theorem analyzeBugs_parse_failure_is_error_witness :
    (jsonParse (deFence "not json") = none) ∧
      analyzeBugs "not json" [] = .error () :=
  ⟨rfl, (analyzeBugs_parse_failure_is_error).1 "not json" [] rfl⟩

/-! ## Lemmas about the normalization pipeline -/

/-- Monadic bind on a failed `Except` computation. -/
@[simp] theorem exBind_err {α β : Type} (e : Unit) (f : α → Except Unit β) :
    ((Except.error e : Except Unit α) >>= f) = .error e := rfl

/-- Defaulting with a truthy default always yields a truthy value. -/
theorem truthy_jsOr {d : JVal} (hd : truthy d = true) (x : Option JVal) :
    truthy (jsOr x d) = true := by
  cases x with
  | none => simpa [jsOr] using hd
  | some v => by_cases hv : truthy v <;> simp [jsOr, hv, hd]

/-- An element-wise successful map succeeds, preserves length, and every
output element comes from some input element. -/
theorem mapME_facts {β : Type} {f : JVal → Except Unit β} :
    ∀ {l : List JVal}, (∀ v ∈ l, ∃ y, f v = .ok y) →
      ∃ out, mapME f l = .ok out ∧ out.length = l.length ∧
        ∀ y ∈ out, ∃ v ∈ l, f v = .ok y := by
  intro l
  induction l with
  | nil => exact fun _ => ⟨[], rfl, rfl, by simp⟩
  | cons v vs ih =>
    intro htot
    obtain ⟨y, hy⟩ := htot v (by simp)
    obtain ⟨out, hout, hlen, hmem⟩ := ih (fun w hw => htot w (by simp [hw]))
    refine ⟨y :: out, by simp [mapME, hy, hout], by simp [hlen], ?_⟩
    intro z hz
    rcases List.mem_cons.mp hz with rfl | hz
    · exact ⟨v, by simp, hy⟩
    · obtain ⟨w, hw, hfw⟩ := hmem z hz
      exact ⟨w, by simp [hw], hfw⟩

/-- Every output element of a successful map comes from some input
element. -/
theorem mapME_ok_mem {β : Type} {f : JVal → Except Unit β} :
    ∀ {l : List JVal} {out : List β}, mapME f l = .ok out →
      ∀ y ∈ out, ∃ v ∈ l, f v = .ok y := by
  intro l
  induction l with
  | nil =>
    intro out h y hy
    cases h
    simp at hy
  | cons v vs ih =>
    intro out h y hy
    cases hv : f v with
    | error e => simp [mapME, hv] at h
    | ok z =>
      cases hvs : mapME f vs with
      | error e => simp [mapME, hv, hvs] at h
      | ok zs =>
        simp [mapME, hv, hvs] at h
        rw [← h] at hy
        rcases List.mem_cons.mp hy with rfl | hy
        · exact ⟨v, by simp, hv⟩
        · obtain ⟨w, hw, hfw⟩ := ih hvs y hy
          exact ⟨w, by simp [hw], hfw⟩

/-- A successful `collMap` is a successful `mapME` on the defaulted element
list. -/
theorem collMap_ok_elim {β : Type} {f : JVal → Except Unit β} {x : Option JVal}
    {out : List β} (h : collMap f x = .ok out) : mapME f (jsArrOf x) = .ok out := by
  unfold collMap at h
  unfold jsArrOf
  cases hv : jsOr x (.arr []) with
  | arr xs =>
    rw [hv] at h
    simp only [hv]
    simpa using h
  | null => rw [hv] at h; simp at h
  | bool b => rw [hv] at h; simp at h
  | num n => rw [hv] at h; simp at h
  | str s => rw [hv] at h; simp at h
  | obj ms => rw [hv] at h; simp at h

/-- A shape-checked collection maps successfully, with the length and
provenance facts. -/
theorem collMap_facts {β : Type} {f : JVal → Except Unit β} {x : Option JVal}
    (hok : collOk x = true) (htot : ∀ v ∈ jsArrOf x, ∃ y, f v = .ok y) :
    ∃ out, collMap f x = .ok out ∧ out.length = (jsArrOf x).length ∧
      ∀ y ∈ out, ∃ v ∈ jsArrOf x, f v = .ok y := by
  have hx : collMap f x = mapME f (jsArrOf x) := by
    unfold collOk at hok
    unfold collMap jsArrOf
    cases h : jsOr x (.arr []) with
    | arr xs => simp [h]
    | null => rw [h] at hok; simp at hok
    | bool b => rw [h] at hok; simp at hok
    | num n => rw [h] at hok; simp at hok
    | str s => rw [h] at hok; simp at hok
    | obj ms => rw [h] at hok; simp at hok
  rw [hx]
  exact mapME_facts htot

/-- Evaluation of `mkCluster` on a non-null element with a well-shaped `bugKeys`. -/
theorem mkCluster_eq {records : List Bug} {cv : JVal} (h : isNull cv = false)
    (hk : collOk (getF cv "bugKeys") = true) :
    mkCluster records cv =
      .ok { id := getF cv "id"
            name := getF cv "name"
            description := getF cv "description"
            rootCause := getF cv "rootCause"
            bugs := (jsArrOf (getF cv "bugKeys")).filterMap (resolveKey records)
            affectedComponents := jsOr (getF cv "affectedComponents") (.arr [])
            severity := jsOr (getF cv "severity") (.str "medium")
            suggestedFix := getF cv "suggestedFix" } := by
  unfold collOk at hk
  unfold mkCluster jsArrOf
  cases hv : jsOr (getF cv "bugKeys") (.arr []) with
  | arr keys => simp [h, hv]
  | null => rw [hv] at hk; simp at hk
  | bool b => rw [hv] at hk; simp at hk
  | num n => rw [hv] at hk; simp at hk
  | str s => rw [hv] at hk; simp at hk
  | obj ms => rw [hv] at hk; simp at hk

/-- The resolved bug list of a successfully normalized cluster. -/
theorem mkCluster_bugs {records : List Bug} {cv : JVal} {c : ClusterE}
    (h : mkCluster records cv = .ok c) :
    c.bugs = (jsArrOf (getF cv "bugKeys")).filterMap (resolveKey records) := by
  unfold mkCluster at h
  unfold jsArrOf
  by_cases hn : isNull cv
  · simp [hn] at h
  · simp only [hn, Bool.false_eq_true, if_false] at h
    cases hv : jsOr (getF cv "bugKeys") (.arr []) with
    | arr keys =>
      rw [hv] at h
      simp at h
      simp [hv, ← h]
    | null => rw [hv] at h; simp at h
    | bool b => rw [hv] at h; simp at h
    | num n => rw [hv] at h; simp at h
    | str s => rw [hv] at h; simp at h
    | obj ms => rw [hv] at h; simp at h

/-- Evaluation of `mkEscape` on a non-null element. -/
theorem mkEscape_eq {pv : JVal} (h : isNull pv = false) :
    mkEscape pv =
      .ok { category := jsOr (getF pv "category") (.str "edge-case")
            description := getF pv "description"
            bugKeys := jsOr (getF pv "bugKeys") (.arr [])
            frequency := jsOr (getF pv "frequency") (.num 0) } := by
  simp [mkEscape, h]

/-- Evaluation of `mkScenario` on a non-null element. -/
theorem mkScenario_eq {sv : JVal} (h : isNull sv = false) :
    mkScenario sv =
      .ok { name := getF sv "name"
            description := getF sv "description"
            type := jsOr (getF sv "type") (.str "integration")
            targetBugs := jsOr (getF sv "targetBugs") (.arr [])
            preconditions := jsOr (getF sv "preconditions") (.arr [])
            steps := jsOr (getF sv "steps") (.arr [])
            expectedOutcome := getF sv "expectedOutcome"
            priority := jsOr (getF sv "priority") (.str "medium") } := by
  simp [mkScenario, h]

/-- Evaluation of `mkGap` on a non-null element. -/
theorem mkGap_eq {gv : JVal} (h : isNull gv = false) :
    mkGap gv =
      .ok { area := getF gv "area"
            description := getF gv "description"
            currentCoverage := jsOr (getF gv "currentCoverage") (.str "Unknown")
            suggestedImprovement := getF gv "suggestedImprovement"
            impactedBugCount := jsOr (getF gv "impactedBugCount") (.num 0) } := by
  simp [mkGap, h]

/-- Evaluation of `mkDefect` on a non-null element. -/
theorem mkDefect_eq {dv : JVal} (h : isNull dv = false) :
    mkDefect dv =
      .ok { phase := jsOr (getF dv "phase") (.str "coding")
            description := jsOr (getF dv "description") (.str "")
            bugKeys := jsOr (getF dv "bugKeys") (.arr [])
            frequency := jsOr (getF dv "frequency") (.num 0)
            preventionStrategy := jsOr (getF dv "preventionStrategy") (.str "") } := by
  simp [mkDefect, h]

/-- Evaluation of `mkRisk` on a non-null element. -/
theorem mkRisk_eq {rv : JVal} (h : isNull rv = false) :
    mkRisk rv =
      .ok { component := jsOr (getF rv "component") (.str "")
            riskScore := jsOr (getF rv "riskScore") (.num 0)
            escapeHistory := jsOr (getF rv "escapeHistory") (.num 0)
            complexityFactor := jsOr (getF rv "complexityFactor") (.str "medium")
            changeFrequency := jsOr (getF rv "changeFrequency") (.str "medium")
            recommendation := jsOr (getF rv "recommendation") (.str "") } := by
  simp [mkRisk, h]

/-- Evaluation of `mkRegression` on a non-null element. -/
theorem mkRegression_eq {rv : JVal} (h : isNull rv = false) :
    mkRegression rv =
      .ok { isRegression := jsOr (getF rv "isRegression") (.bool false)
            bugKey := jsOr (getF rv "bugKey") (.str "")
            relatedBugKeys := jsOr (getF rv "relatedBugKeys") (.arr [])
            regressionType := jsOr (getF rv "regressionType") (.str "similar")
            likelyCause := jsOr (getF rv "likelyCause") (.str "") } := by
  simp [mkRegression, h]

/-- Evaluation of `mkImpact` on a non-null element. -/
theorem mkImpact_eq {iv : JVal} (h : isNull iv = false) :
    mkImpact iv =
      .ok { bugKey := jsOr (getF iv "bugKey") (.str "")
            impactLevel := jsOr (getF iv "impactLevel") (.str "medium")
            affectedUsers := jsOr (getF iv "affectedUsers") (.str "some")
            businessFunction := jsOr (getF iv "businessFunction") (.str "")
            workaroundAvailable := jsOr (getF iv "workaroundAvailable") (.bool false)
            estimatedCost := jsOr (getF iv "estimatedCost") (.str "medium") } := by
  simp [mkImpact, h]

/-- Evaluation of `mkTestData` on a non-null element. -/
theorem mkTestData_eq {tv : JVal} (h : isNull tv = false) :
    mkTestData tv =
      .ok { category := jsOr (getF tv "category") (.str "")
            description := jsOr (getF tv "description") (.str "")
            dataPatterns := jsOr (getF tv "dataPatterns") (.arr [])
            edgeCases := jsOr (getF tv "edgeCases") (.arr [])
            targetBugs := jsOr (getF tv "targetBugs") (.arr [])
            priority := jsOr (getF tv "priority") (.str "medium") } := by
  simp [mkTestData, h]

/-- Evaluation of `mkProcess` on a non-null element. -/
theorem mkProcess_eq {pv : JVal} (h : isNull pv = false) :
    mkProcess pv =
      .ok { area := jsOr (getF pv "area") (.str "testing")
            suggestion := jsOr (getF pv "suggestion") (.str "")
            rationale := jsOr (getF pv "rationale") (.str "")
            targetBugs := jsOr (getF pv "targetBugs") (.arr [])
            effort := jsOr (getF pv "effort") (.str "medium")
            impact := jsOr (getF pv "impact") (.str "medium") } := by
  simp [mkProcess, h]

/-- Totality of `mkRecommendation` on any non-null element; its priority is
always truthy (legacy strings get `"medium"`, objects get
`priority || "medium"`). -/
theorem mkRecommendation_total {rv : JVal} (h : isNull rv = false) :
    ∃ y, mkRecommendation rv = .ok y := by
  by_cases hs : isStringV rv
  · exact ⟨{ text := rv, reasoning := .str "", targetBugs := .arr [],
             priority := .str "medium" }, by simp [mkRecommendation, hs]⟩
  · exact ⟨{ text := jsOr (getF rv "text") (.str "")
             reasoning := jsOr (getF rv "reasoning") (.str "")
             targetBugs := jsOr (getF rv "targetBugs") (.arr [])
             priority := jsOr (getF rv "priority") (.str "medium") },
           by simp [mkRecommendation, hs, h]⟩

/-- The priority of any successfully normalized recommendation is truthy. -/
theorem mkRecommendation_priority {rv : JVal} {y : RecommendationE}
    (h : mkRecommendation rv = .ok y) : truthy y.priority = true := by
  unfold mkRecommendation at h
  by_cases hs : isStringV rv
  · rw [if_pos hs] at h
    cases h
    rfl
  · rw [if_neg hs] at h
    by_cases hn : isNull rv
    · simp [hn] at h
    · simp only [hn, Bool.false_eq_true, if_false] at h
      cases h
      exact @truthy_jsOr (JVal.str "medium") rfl (getF rv "priority")

/-- A normalized recommendation either came from a legacy bare string (and
got the fixed structured shape) or from an object element (and got
`priority || "medium"`). -/
theorem mkRecommendation_cases {rv : JVal} {y : RecommendationE}
    (h : mkRecommendation rv = .ok y) :
    (isStringV rv = true ∧ y.priority = .str "medium" ∧ y.text = rv ∧
      y.reasoning = .str "" ∧ y.targetBugs = .arr []) ∨
    (isStringV rv = false ∧ y.priority = jsOr (getF rv "priority") (.str "medium")) := by
  unfold mkRecommendation at h
  by_cases hs : isStringV rv
  · rw [if_pos hs] at h
    cases h
    exact Or.inl ⟨hs, rfl, rfl, rfl, rfl⟩
  · rw [if_neg hs] at h
    by_cases hn : isNull rv
    · simp [hn] at h
    · simp only [hn, Bool.false_eq_true, if_false] at h
      cases h
      exact Or.inr ⟨by simpa using hs, rfl⟩

/-- Monadic `pure` on `Except` is `ok`. -/
@[simp] theorem exPure_eq {β : Type} (x : β) : (pure x : Except Unit β) = .ok x := rfl

/-- Constructing a successful `enrichAnalysis` run from its collection
results. -/
theorem enrich_ok_intro {a : JVal} {records : List Bug} (hn : isNull a = false)
    {l1 : List ClusterE} {l2 : List EscapePatternE} {l3 : List TestScenarioE}
    {l4 : List TestingGapE} {l5 : List DefectInjectionPointE} {l6 : List ComponentRiskScoreE}
    {l7 : List RegressionAnalysisE} {l8 : List CustomerImpactE}
    {l9 : List TestDataRecommendationE} {l10 : List ProcessImprovementE}
    {l11 : List RecommendationE}
    (h1 : collMap (mkCluster records) (getF a "rootCauseClusters") = .ok l1)
    (h2 : collMap mkEscape (getF a "escapePatterns") = .ok l2)
    (h3 : collMap mkScenario (getF a "suggestedTestScenarios") = .ok l3)
    (h4 : collMap mkGap (getF a "testingGaps") = .ok l4)
    (h5 : collMap mkDefect (getF a "defectInjectionPoints") = .ok l5)
    (h6 : collMap mkRisk (getF a "componentRiskScores") = .ok l6)
    (h7 : collMap mkRegression (getF a "regressionAnalysis") = .ok l7)
    (h8 : collMap mkImpact (getF a "customerImpacts") = .ok l8)
    (h9 : collMap mkTestData (getF a "testDataRecommendations") = .ok l9)
    (h10 : collMap mkProcess (getF a "processImprovements") = .ok l10)
    (h11 : collMap mkRecommendation (getF a "recommendations") = .ok l11) :
    enrichAnalysis a records =
      .ok { rootCauseClusters := l1
            recurringIssues := jsOr (getF a "recurringIssues") (.arr [])
            componentHotspots := jsOr (getF a "componentHotspots") (.arr [])
            summary := jsOr (getF a "summary") (.str "")
            recommendations := l11
            escapePatterns := l2
            suggestedTestScenarios := l3
            testingGaps := l4
            defectInjectionPoints := l5
            componentRiskScores := l6
            regressionAnalysis := l7
            customerImpacts := l8
            testDataRecommendations := l9
            processImprovements := l10
            trendMetrics := mkTrend a records
            automationOpportunities := none
            linuxPortAnalysis := none } := by
  unfold enrichAnalysis
  simp only [hn, Bool.false_eq_true, if_false, h1, h2, h3, h4, h5, h6, h7, h8, h9, h10, h11,
    exBind_ok, exPure_eq]

/-- A successful `enrichAnalysis` run normalized its cluster collection. -/
theorem enrich_ok_clusters {a : JVal} {records : List Bug} {r : ReportE}
    (h : enrichAnalysis a records = .ok r) :
    collMap (mkCluster records) (getF a "rootCauseClusters") = .ok r.rootCauseClusters := by
  unfold enrichAnalysis at h
  by_cases hn : isNull a
  · rw [if_pos hn] at h
    cases h
  · rw [if_neg hn] at h
    cases h1 : collMap (mkCluster records) (getF a "rootCauseClusters") with
    | error e => rw [h1] at h; simp at h
    | ok l1 =>
    rw [h1] at h; simp only [exBind_ok] at h
    cases h2 : collMap mkEscape (getF a "escapePatterns") with
    | error e => rw [h2] at h; simp at h
    | ok l2 =>
    rw [h2] at h; simp only [exBind_ok] at h
    cases h3 : collMap mkScenario (getF a "suggestedTestScenarios") with
    | error e => rw [h3] at h; simp at h
    | ok l3 =>
    rw [h3] at h; simp only [exBind_ok] at h
    cases h4 : collMap mkGap (getF a "testingGaps") with
    | error e => rw [h4] at h; simp at h
    | ok l4 =>
    rw [h4] at h; simp only [exBind_ok] at h
    cases h5 : collMap mkDefect (getF a "defectInjectionPoints") with
    | error e => rw [h5] at h; simp at h
    | ok l5 =>
    rw [h5] at h; simp only [exBind_ok] at h
    cases h6 : collMap mkRisk (getF a "componentRiskScores") with
    | error e => rw [h6] at h; simp at h
    | ok l6 =>
    rw [h6] at h; simp only [exBind_ok] at h
    cases h7 : collMap mkRegression (getF a "regressionAnalysis") with
    | error e => rw [h7] at h; simp at h
    | ok l7 =>
    rw [h7] at h; simp only [exBind_ok] at h
    cases h8 : collMap mkImpact (getF a "customerImpacts") with
    | error e => rw [h8] at h; simp at h
    | ok l8 =>
    rw [h8] at h; simp only [exBind_ok] at h
    cases h9 : collMap mkTestData (getF a "testDataRecommendations") with
    | error e => rw [h9] at h; simp at h
    | ok l9 =>
    rw [h9] at h; simp only [exBind_ok] at h
    cases h10 : collMap mkProcess (getF a "processImprovements") with
    | error e => rw [h10] at h; simp at h
    | ok l10 =>
    rw [h10] at h; simp only [exBind_ok] at h
    cases h11 : collMap mkRecommendation (getF a "recommendations") with
    | error e => rw [h11] at h; simp at h
    | ok l11 =>
    rw [h11] at h; simp only [exBind_ok, exPure_eq] at h
    cases h
    rfl

/-- A hit in the key-indexed `Map` comes from the record list and matches
the looked-up key (or was already in the accumulator). -/
theorem bugMapGet_fold_mem :
    ∀ (records : List Bug) (acc : Option Bug) (s : String) (b : Bug),
      records.foldl (fun acc b => if b.key == s then some b else acc) acc = some b →
      (b ∈ records ∧ b.key = s) ∨ acc = some b := by
  intro records
  induction records with
  | nil => exact fun acc s b h => Or.inr h
  | cons r rest ih =>
    intro acc s b h
    rw [List.foldl_cons] at h
    rcases ih _ s b h with ⟨hb, hk⟩ | hacc
    · exact Or.inl ⟨List.mem_cons_of_mem _ hb, hk⟩
    · by_cases hr : r.key == s
      · rw [if_pos hr] at hacc
        cases hacc
        exact Or.inl ⟨List.mem_cons_self _ _, by simpa using hr⟩
      · rw [if_neg hr] at hacc
        exact Or.inr hacc

/-- A resolved bug key yields a record from the input list whose key is the
looked-up string. -/
theorem resolveKey_mem {records : List Bug} {k : JVal} {b : Bug}
    (h : resolveKey records k = some b) : b ∈ records ∧ k = .str b.key := by
  cases k with
  | str s =>
    have hm := bugMapGet_fold_mem records none s b h
    rcases hm with ⟨hb, hk⟩ | hacc
    · exact ⟨hb, by rw [hk]⟩
    · cases hacc
  | null => simp [resolveKey] at h
  | bool b2 => simp [resolveKey] at h
  | num n => simp [resolveKey] at h
  | arr xs => simp [resolveKey] at h
  | obj ms => simp [resolveKey] at h

/-- C6. For every normalized root-cause cluster: the resolved bug list is a
subset of the input records, it equals the cluster's raw `bugKeys` pushed
through the key lookup with unresolvable keys silently dropped, and each
resolved bug's key appears in the raw `bugKeys` list; moreover a cluster
with a well-shaped `bugKeys` list always normalizes successfully, however
many of its keys are unresolvable. -/
theorem cluster_bug_resolution_subset :
    (∀ (a : JVal) (records : List Bug) (r : ReportE), enrichAnalysis a records = .ok r →
      ∀ c ∈ r.rootCauseClusters,
        (∀ b ∈ c.bugs, b ∈ records) ∧
        ∃ cv ∈ jsArrOf (getF a "rootCauseClusters"),
          c.bugs = (jsArrOf (getF cv "bugKeys")).filterMap (resolveKey records) ∧
          ∀ b ∈ c.bugs, JVal.str b.key ∈ jsArrOf (getF cv "bugKeys")) ∧
    ∀ (cv : JVal) (records : List Bug), isNull cv = false →
      collOk (getF cv "bugKeys") = true →
      ∃ c, mkCluster records cv = .ok c ∧
        c.bugs = (jsArrOf (getF cv "bugKeys")).filterMap (resolveKey records) := by
  constructor
  · intro a records r h c hc
    have hcl := enrich_ok_clusters h
    obtain ⟨cv, hcv, hmk⟩ := mapME_ok_mem (collMap_ok_elim hcl) c hc
    have hbugs := mkCluster_bugs hmk
    constructor
    · intro b hb
      rw [hbugs] at hb
      obtain ⟨k, _, hres⟩ := List.mem_filterMap.mp hb
      exact (resolveKey_mem hres).1
    · refine ⟨cv, hcv, hbugs, ?_⟩
      intro b hb
      rw [hbugs] at hb
      obtain ⟨k, hk, hres⟩ := List.mem_filterMap.mp hb
      have := (resolveKey_mem hres).2
      rwa [← this]
  · intro cv records hn hk
    exact ⟨_, mkCluster_eq hn hk, rfl⟩

theorem cluster_bug_resolution_subset_witness :
    (enrichAnalysis
        (.obj [("rootCauseClusters",
          .arr [.obj [("bugKeys", .arr [.str "BUG-1", .str "BUG-9"])]])])
        [⟨"BUG-1", "1"⟩] =
      .ok { rootCauseClusters :=
              [{ id := none, name := none, description := none, rootCause := none,
                 bugs := [⟨"BUG-1", "1"⟩], affectedComponents := .arr [],
                 severity := .str "medium", suggestedFix := none }]
            recurringIssues := .arr []
            componentHotspots := .arr []
            summary := .str ""
            recommendations := []
            escapePatterns := []
            suggestedTestScenarios := []
            testingGaps := []
            defectInjectionPoints := []
            componentRiskScores := []
            regressionAnalysis := []
            customerImpacts := []
            testDataRecommendations := []
            processImprovements := []
            trendMetrics := { period := .str "Current Period", totalBugs := .num 1,
                              escapesByCategory := .obj [], topComponents := .arr [],
                              riskTrend := .str "stable", comparisonToPrevious := .str "" }
            automationOpportunities := none
            linuxPortAnalysis := none }) ∧
    ∀ c ∈ [{ id := none, name := none, description := none, rootCause := none,
             bugs := [(⟨"BUG-1", "1"⟩ : Bug)], affectedComponents := JVal.arr [],
             severity := JVal.str "medium", suggestedFix := none : ClusterE }],
      ∀ b ∈ ClusterE.bugs c, b ∈ [(⟨"BUG-1", "1"⟩ : Bug)] := by
  constructor
  · rfl
  · intro c hc b hb
    exact (cluster_bug_resolution_subset.1
      (.obj [("rootCauseClusters",
        .arr [.obj [("bugKeys", .arr [.str "BUG-1", .str "BUG-9"])]])])
      [⟨"BUG-1", "1"⟩] _ rfl c hc).1 b hb

/-! ## C1: defaulting behaviour of the normalizer -/

/-- The shape restriction under which `enrichAnalysis` cannot throw: the
reply is not JSON `null`, every normalized collection field is absent, falsy
or an array, every element of those arrays is non-null, and every cluster's
`bugKeys` is itself absent, falsy or an array. (Outside this set the
JavaScript throws a `TypeError` — see the counterexamples around
`mapIssueToBug` for the same pattern.) -/
def wellShaped (a : JVal) : Prop :=
  isNull a = false ∧
  collOk (getF a "rootCauseClusters") = true ∧
  (∀ cv ∈ jsArrOf (getF a "rootCauseClusters"),
    isNull cv = false ∧ collOk (getF cv "bugKeys") = true) ∧
  collOk (getF a "escapePatterns") = true ∧
  (∀ v ∈ jsArrOf (getF a "escapePatterns"), isNull v = false) ∧
  collOk (getF a "suggestedTestScenarios") = true ∧
  (∀ v ∈ jsArrOf (getF a "suggestedTestScenarios"), isNull v = false) ∧
  collOk (getF a "testingGaps") = true ∧
  (∀ v ∈ jsArrOf (getF a "testingGaps"), isNull v = false) ∧
  collOk (getF a "defectInjectionPoints") = true ∧
  (∀ v ∈ jsArrOf (getF a "defectInjectionPoints"), isNull v = false) ∧
  collOk (getF a "componentRiskScores") = true ∧
  (∀ v ∈ jsArrOf (getF a "componentRiskScores"), isNull v = false) ∧
  collOk (getF a "regressionAnalysis") = true ∧
  (∀ v ∈ jsArrOf (getF a "regressionAnalysis"), isNull v = false) ∧
  collOk (getF a "customerImpacts") = true ∧
  (∀ v ∈ jsArrOf (getF a "customerImpacts"), isNull v = false) ∧
  collOk (getF a "testDataRecommendations") = true ∧
  (∀ v ∈ jsArrOf (getF a "testDataRecommendations"), isNull v = false) ∧
  collOk (getF a "processImprovements") = true ∧
  (∀ v ∈ jsArrOf (getF a "processImprovements"), isNull v = false) ∧
  collOk (getF a "recommendations") = true ∧
  (∀ v ∈ jsArrOf (getF a "recommendations"), isNull v = false)

/-- The state of every collection the `PatternReport` declares: the eleven
normalized ones present as lists of the raw lengths (empty when the raw
field was absent or falsy), the passthrough fields with only `|| []` /
`|| ''` applied, and the declared `automationOpportunities` and
`linuxPortAnalysis` collections never set — left `undefined` by the
normalizer. -/
def declaredCollections (a : JVal) (r : ReportE) : Prop :=
  r.rootCauseClusters.length = (jsArrOf (getF a "rootCauseClusters")).length ∧
  r.escapePatterns.length = (jsArrOf (getF a "escapePatterns")).length ∧
  r.suggestedTestScenarios.length = (jsArrOf (getF a "suggestedTestScenarios")).length ∧
  r.testingGaps.length = (jsArrOf (getF a "testingGaps")).length ∧
  r.defectInjectionPoints.length = (jsArrOf (getF a "defectInjectionPoints")).length ∧
  r.componentRiskScores.length = (jsArrOf (getF a "componentRiskScores")).length ∧
  r.regressionAnalysis.length = (jsArrOf (getF a "regressionAnalysis")).length ∧
  r.customerImpacts.length = (jsArrOf (getF a "customerImpacts")).length ∧
  r.testDataRecommendations.length = (jsArrOf (getF a "testDataRecommendations")).length ∧
  r.processImprovements.length = (jsArrOf (getF a "processImprovements")).length ∧
  r.recommendations.length = (jsArrOf (getF a "recommendations")).length ∧
  r.recurringIssues = jsOr (getF a "recurringIssues") (.arr []) ∧
  r.componentHotspots = jsOr (getF a "componentHotspots") (.arr []) ∧
  r.summary = jsOr (getF a "summary") (.str "") ∧
  r.automationOpportunities = none ∧
  r.linuxPortAnalysis = none

/-- Every enumerated field of every normalized sub-entity is defined and
truthy, and equals `raw || default`: the documented default exactly when the
raw field was absent or falsy, the raw reply's value — whatever it is —
passed through verbatim otherwise. -/
def enumFieldsDefaulted (a : JVal) (r : ReportE) : Prop :=
  (∀ c ∈ r.rootCauseClusters, truthy c.severity = true ∧
    ∃ cv ∈ jsArrOf (getF a "rootCauseClusters"),
      c.severity = jsOr (getF cv "severity") (.str "medium")) ∧
  (∀ e ∈ r.escapePatterns, truthy e.category = true ∧
    ∃ pv ∈ jsArrOf (getF a "escapePatterns"),
      e.category = jsOr (getF pv "category") (.str "edge-case")) ∧
  (∀ t ∈ r.suggestedTestScenarios, truthy t.type = true ∧ truthy t.priority = true ∧
    ∃ sv ∈ jsArrOf (getF a "suggestedTestScenarios"),
      t.type = jsOr (getF sv "type") (.str "integration") ∧
      t.priority = jsOr (getF sv "priority") (.str "medium")) ∧
  (∀ g ∈ r.testingGaps, truthy g.currentCoverage = true) ∧
  (∀ d ∈ r.defectInjectionPoints, truthy d.phase = true ∧
    ∃ dv ∈ jsArrOf (getF a "defectInjectionPoints"),
      d.phase = jsOr (getF dv "phase") (.str "coding")) ∧
  (∀ k ∈ r.componentRiskScores, truthy k.complexityFactor = true ∧
    truthy k.changeFrequency = true ∧
    ∃ kv ∈ jsArrOf (getF a "componentRiskScores"),
      k.complexityFactor = jsOr (getF kv "complexityFactor") (.str "medium") ∧
      k.changeFrequency = jsOr (getF kv "changeFrequency") (.str "medium")) ∧
  (∀ g ∈ r.regressionAnalysis, truthy g.regressionType = true ∧
    ∃ gv ∈ jsArrOf (getF a "regressionAnalysis"),
      g.regressionType = jsOr (getF gv "regressionType") (.str "similar")) ∧
  (∀ i ∈ r.customerImpacts, truthy i.impactLevel = true ∧ truthy i.affectedUsers = true ∧
    truthy i.estimatedCost = true ∧
    ∃ iv ∈ jsArrOf (getF a "customerImpacts"),
      i.impactLevel = jsOr (getF iv "impactLevel") (.str "medium") ∧
      i.affectedUsers = jsOr (getF iv "affectedUsers") (.str "some") ∧
      i.estimatedCost = jsOr (getF iv "estimatedCost") (.str "medium")) ∧
  (∀ t ∈ r.testDataRecommendations, truthy t.priority = true ∧
    ∃ tv ∈ jsArrOf (getF a "testDataRecommendations"),
      t.priority = jsOr (getF tv "priority") (.str "medium")) ∧
  (∀ p ∈ r.processImprovements, truthy p.area = true ∧ truthy p.effort = true ∧
    truthy p.impact = true ∧
    ∃ pv ∈ jsArrOf (getF a "processImprovements"),
      p.area = jsOr (getF pv "area") (.str "testing") ∧
      p.effort = jsOr (getF pv "effort") (.str "medium") ∧
      p.impact = jsOr (getF pv "impact") (.str "medium")) ∧
  (∀ rec ∈ r.recommendations, truthy rec.priority = true ∧
    ∃ rv ∈ jsArrOf (getF a "recommendations"),
      (isStringV rv = true ∧ rec.priority = .str "medium") ∨
      (isStringV rv = false ∧ rec.priority = jsOr (getF rv "priority") (.str "medium"))) ∧
  truthy r.trendMetrics.riskTrend = true ∧
  r.trendMetrics.riskTrend = jsOr (chain (getF a "trendMetrics") "riskTrend") (.str "stable") ∧
  truthy r.trendMetrics.period = true

/-- C1 (amended). For every parsed reply within the shape on which the
normalizer does not throw (`wellShaped`: not `null`, collection fields
absent/falsy/array, elements non-null, cluster `bugKeys` well-shaped),
`enrichAnalysis` succeeds and returns a report in which the thirteen
collections the code populates are present (empty when the raw field was
absent or falsy, the passthrough fields defaulted with `|| []`) while the
declared `automationOpportunities` and `linuxPortAnalysis` collections are
never set (left undefined), and every enumerated field of every normalized
sub-entity is defined and truthy: the documented default exactly when the
raw field was absent or falsy (a legacy bare-string recommendation getting
priority `"medium"`), and otherwise the raw value passed through verbatim —
a value outside the documented closed set is NOT coerced to the default
(see the counterexample). -/
theorem enrich_defaulting_amended (a : JVal) (records : List Bug) (hw : wellShaped a) :
    ∃ r, enrichAnalysis a records = .ok r ∧ declaredCollections a r ∧ enumFieldsDefaulted a r := by
  obtain ⟨hn, hc1, he1, hc2, he2, hc3, he3, hc4, he4, hc5, he5, hc6, he6, hc7, he7,
    hc8, he8, hc9, he9, hc10, he10, hc11, he11⟩ := hw
  obtain ⟨l1, hl1, hlen1, hmem1⟩ :=
    collMap_facts hc1 (fun v hv => ⟨_, mkCluster_eq (he1 v hv).1 (he1 v hv).2⟩)
  obtain ⟨l2, hl2, hlen2, hmem2⟩ := collMap_facts hc2 (fun v hv => ⟨_, mkEscape_eq (he2 v hv)⟩)
  obtain ⟨l3, hl3, hlen3, hmem3⟩ := collMap_facts hc3 (fun v hv => ⟨_, mkScenario_eq (he3 v hv)⟩)
  obtain ⟨l4, hl4, hlen4, hmem4⟩ := collMap_facts hc4 (fun v hv => ⟨_, mkGap_eq (he4 v hv)⟩)
  obtain ⟨l5, hl5, hlen5, hmem5⟩ := collMap_facts hc5 (fun v hv => ⟨_, mkDefect_eq (he5 v hv)⟩)
  obtain ⟨l6, hl6, hlen6, hmem6⟩ := collMap_facts hc6 (fun v hv => ⟨_, mkRisk_eq (he6 v hv)⟩)
  obtain ⟨l7, hl7, hlen7, hmem7⟩ :=
    collMap_facts hc7 (fun v hv => ⟨_, mkRegression_eq (he7 v hv)⟩)
  obtain ⟨l8, hl8, hlen8, hmem8⟩ := collMap_facts hc8 (fun v hv => ⟨_, mkImpact_eq (he8 v hv)⟩)
  obtain ⟨l9, hl9, hlen9, hmem9⟩ := collMap_facts hc9 (fun v hv => ⟨_, mkTestData_eq (he9 v hv)⟩)
  obtain ⟨l10, hl10, hlen10, hmem10⟩ :=
    collMap_facts hc10 (fun v hv => ⟨_, mkProcess_eq (he10 v hv)⟩)
  obtain ⟨l11, hl11, hlen11, hmem11⟩ :=
    collMap_facts hc11 (fun v hv => mkRecommendation_total (he11 v hv))
  refine ⟨_, enrich_ok_intro hn hl1 hl2 hl3 hl4 hl5 hl6 hl7 hl8 hl9 hl10 hl11, ?_, ?_⟩
  · exact ⟨hlen1, hlen2, hlen3, hlen4, hlen5, hlen6, hlen7, hlen8, hlen9, hlen10, hlen11,
      rfl, rfl, rfl, rfl, rfl⟩
  · refine ⟨?_, ?_, ?_, ?_, ?_, ?_, And.intro ?_ (And.intro ?_ (And.intro ?_
      (And.intro ?_ (And.intro ?_ (And.intro ?_ (And.intro ?_ ?_))))))⟩
    · intro c hc
      obtain ⟨cv, hcv, hmk⟩ := hmem1 c hc
      rw [mkCluster_eq (he1 cv hcv).1 (he1 cv hcv).2] at hmk
      cases hmk
      exact ⟨@truthy_jsOr (.str "medium") rfl _, cv, hcv, rfl⟩
    · intro e he
      obtain ⟨pv, hpv, hmk⟩ := hmem2 e he
      rw [mkEscape_eq (he2 pv hpv)] at hmk
      cases hmk
      exact ⟨@truthy_jsOr (.str "edge-case") rfl _, pv, hpv, rfl⟩
    · intro t ht
      obtain ⟨sv, hsv, hmk⟩ := hmem3 t ht
      rw [mkScenario_eq (he3 sv hsv)] at hmk
      cases hmk
      exact ⟨@truthy_jsOr (.str "integration") rfl _, @truthy_jsOr (.str "medium") rfl _,
        sv, hsv, rfl, rfl⟩
    · intro g hg
      obtain ⟨gv, hgv, hmk⟩ := hmem4 g hg
      rw [mkGap_eq (he4 gv hgv)] at hmk
      cases hmk
      exact @truthy_jsOr (.str "Unknown") rfl _
    · intro d hd
      obtain ⟨dv, hdv, hmk⟩ := hmem5 d hd
      rw [mkDefect_eq (he5 dv hdv)] at hmk
      cases hmk
      exact ⟨@truthy_jsOr (.str "coding") rfl _, dv, hdv, rfl⟩
    · intro k hk
      obtain ⟨kv, hkv, hmk⟩ := hmem6 k hk
      rw [mkRisk_eq (he6 kv hkv)] at hmk
      cases hmk
      exact ⟨@truthy_jsOr (.str "medium") rfl _, @truthy_jsOr (.str "medium") rfl _,
        kv, hkv, rfl, rfl⟩
    · intro g hg
      obtain ⟨gv, hgv, hmk⟩ := hmem7 g hg
      rw [mkRegression_eq (he7 gv hgv)] at hmk
      cases hmk
      exact ⟨@truthy_jsOr (.str "similar") rfl _, gv, hgv, rfl⟩
    · intro i hi
      obtain ⟨iv, hiv, hmk⟩ := hmem8 i hi
      rw [mkImpact_eq (he8 iv hiv)] at hmk
      cases hmk
      exact ⟨@truthy_jsOr (.str "medium") rfl _, @truthy_jsOr (.str "some") rfl _,
        @truthy_jsOr (.str "medium") rfl _, iv, hiv, rfl, rfl, rfl⟩
    · intro t ht
      obtain ⟨tv, htv, hmk⟩ := hmem9 t ht
      rw [mkTestData_eq (he9 tv htv)] at hmk
      cases hmk
      exact ⟨@truthy_jsOr (.str "medium") rfl _, tv, htv, rfl⟩
    · intro p hp
      obtain ⟨pv, hpv, hmk⟩ := hmem10 p hp
      rw [mkProcess_eq (he10 pv hpv)] at hmk
      cases hmk
      exact ⟨@truthy_jsOr (.str "testing") rfl _, @truthy_jsOr (.str "medium") rfl _,
        @truthy_jsOr (.str "medium") rfl _, pv, hpv, rfl, rfl, rfl⟩
    · intro rec hrec
      obtain ⟨rv, hrv, hmk⟩ := hmem11 rec hrec
      refine ⟨mkRecommendation_priority hmk, rv, hrv, ?_⟩
      rcases mkRecommendation_cases hmk with ⟨hs, hp, -⟩ | ⟨hs, hp⟩
      · exact Or.inl ⟨hs, hp⟩
      · exact Or.inr ⟨hs, hp⟩
    · exact @truthy_jsOr (.str "stable") rfl _
    · rfl
    · exact @truthy_jsOr (.str "Current Period") rfl _

/-- The documented closed set for a cluster's `severity`. -/
def allowedSeverities : List String := ["critical", "high", "medium", "low"]

/-- The severities of the normalized clusters (empty on error). -/
def clusterSeveritiesOf (x : Except Unit ReportE) : List JVal :=
  match x with
  | .ok r => r.rootCauseClusters.map (fun c => c.severity)
  | .error _ => []

/-- A reply whose only cluster carries a severity outside the documented
closed set. -/
def bananaReply : JVal :=
  .obj [("rootCauseClusters", .arr [.obj [("severity", .str "banana")]])]

/-- C1 counterexample. The claim says a value outside the allowed closed set
"is coerced to the documented default"; the code's `cluster.severity ||
'medium'` only replaces falsy values, so the truthy out-of-set string
`"banana"` is passed through verbatim into the report. -/
theorem enrich_severity_passthrough_counterexample :
    clusterSeveritiesOf (enrichAnalysis bananaReply []) = [.str "banana"] ∧
      "banana" ∉ allowedSeverities :=
  ⟨rfl, by decide⟩

theorem enrich_defaulting_amended_witness :
    wellShaped bananaReply ∧
      ∃ r, enrichAnalysis bananaReply [] = .ok r ∧
        declaredCollections bananaReply r ∧ enumFieldsDefaulted bananaReply r :=
  ⟨by unfold wellShaped; decide,
   enrich_defaulting_amended bananaReply [] (by unfold wellShaped; decide)⟩

/-! ## C8: totality of the Record Mapper -/

/-- A successful `Except` computation has a successful value. -/
theorem exists_ok_of_isOk {β : Type} {e : Except Unit β} (h : e.isOk = true) :
    ∃ y, e = .ok y := by
  cases e with
  | error u => simp [Except.isOk, Except.toBool] at h
  | ok y => exact ⟨y, rfl⟩

/-- Is the optional value a string? -/
def isStrOpt : Option JVal → Bool
  | some (.str _) => true
  | _ => false

/-- The shape under which one comment maps without throwing: the element is
non-null and its body is either a string or a rich document whose walk
succeeds. -/
def commentOk (c : JVal) : Prop :=
  isNull c = false ∧
  (isStrOpt (getF c "body") = true ∨ (extractTextFromADF (getF c "body")).isOk = true)

instance (c : JVal) : Decidable (commentOk c) := by
  unfold commentOk; infer_instance

instance (a : JVal) : Decidable (wellShaped a) := by
  unfold wellShaped; infer_instance

/-- A well-shaped comment maps successfully. -/
theorem mkComment_total {c : JVal} (h : commentOk c) : ∃ y, mkComment c = .ok y := by
  obtain ⟨hn, hb⟩ := h
  apply exists_ok_of_isOk
  unfold mkComment
  simp only [hn, Bool.false_eq_true, if_false]
  cases hgb : getF c "body" with
  | none => simp [hgb, extractTextFromADF, Except.isOk, Except.toBool]
  | some v =>
    rw [hgb] at hb
    cases v with
    | str s => simp [hgb, Except.isOk, Except.toBool]
    | null => simp [hgb, extractTextFromADF, truthy, Except.isOk, Except.toBool]
    | bool b =>
      cases b <;> simp [hgb, extractTextFromADF, truthy, getF, Except.isOk, Except.toBool]
    | num n =>
      by_cases hz : n = 0 <;>
        simp [hgb, extractTextFromADF, truthy, getF, hz, Except.isOk, Except.toBool]
    | arr xs => simp [hgb, extractTextFromADF, truthy, getF, Except.isOk, Except.toBool]
    | obj ms =>
      rcases hb with hb | hb
      · simp [isStrOpt] at hb
      · cases hex : extractTextFromADF (some (.obj ms)) with
        | ok t => simp [hgb, hex, Except.isOk, Except.toBool]
        | error e => rw [hex] at hb; simp [Except.isOk, Except.toBool] at hb

/-- Every extracted custom field has the `customfield_` key prefix and a
non-null value. -/
theorem extractCustomFields_mem {fields : JVal} {kv : String × JVal}
    (h : kv ∈ extractCustomFields fields) :
    strStartsWith kv.1 "customfield_" = true ∧ isNull kv.2 = false := by
  unfold extractCustomFields at h
  cases fields with
  | obj ms =>
    obtain ⟨-, hp⟩ := List.mem_filter.mp h
    simp [Bool.and_eq_true] at hp
    exact ⟨hp.1, by simpa using hp.2⟩
  | null => simp at h
  | bool b => simp at h
  | num n => simp at h
  | str s => simp at h
  | arr xs => simp at h

/-- Conversely, every non-null `customfield_`-prefixed member of an object
field set is extracted. -/
theorem extractCustomFields_complete {ms : List (String × JVal)} {kv : String × JVal}
    (hkv : kv ∈ ms) (hp : strStartsWith kv.1 "customfield_" = true)
    (hnn : isNull kv.2 = false) : kv ∈ extractCustomFields (.obj ms) := by
  unfold extractCustomFields
  exact List.mem_filter.mpr ⟨hkv, by simp [hp, hnn]⟩

/-- The shape under which the Record Mapper cannot throw: a non-null issue
whose comment list and `components` are absent, falsy or arrays of non-null
elements, whose comment bodies are strings or walkable rich documents, and
whose description maps without throwing. -/
def mapperShapeOk (issue : JVal) : Prop :=
  isNull issue = false ∧
  collOk (chain (getF (fieldsOf issue) "comment") "comments") = true ∧
  (∀ c ∈ jsArrOf (chain (getF (fieldsOf issue) "comment") "comments"), commentOk c) ∧
  (mapDescription (getF (fieldsOf issue) "description")).isOk = true ∧
  collOk (getF (fieldsOf issue) "components") = true ∧
  (∀ c ∈ jsArrOf (getF (fieldsOf issue) "components"), isNull c = false)

instance (issue : JVal) : Decidable (mapperShapeOk issue) := by
  unfold mapperShapeOk; infer_instance

/-- The documented per-field defaults of the Record Mapper, plus the
custom-field filter guarantee. -/
def mappedBugFacts (issue : JVal) (b : MappedBug) : Prop :=
  b.key = getF issue "key" ∧
  b.id = getF issue "id" ∧
  b.summary = jsOr (getF (fieldsOf issue) "summary") (.str "") ∧
  b.status = jsOr (chain (getF (fieldsOf issue) "status") "name") (.str "Unknown") ∧
  b.resolution = jsOr (chain (getF (fieldsOf issue) "resolution") "name") .null ∧
  b.priority = jsOr (chain (getF (fieldsOf issue) "priority") "name") .null ∧
  b.labels = jsOr (getF (fieldsOf issue) "labels") (.arr []) ∧
  b.reporter = jsOr (chain (getF (fieldsOf issue) "reporter") "displayName") .null ∧
  b.assignee = jsOr (chain (getF (fieldsOf issue) "assignee") "displayName") .null ∧
  b.failureType = jsOr (chain (getF (fieldsOf issue) "customfield_10165") "value") .null ∧
  b.isEscapeBug = strictEqStr (chain (getF (fieldsOf issue) "customfield_10164") "value") "Yes" ∧
  b.customerImpact = jsOr (chain (getF (fieldsOf issue) "customfield_10066") "value") .null ∧
  b.customer = jsOr (chain (getF (fieldsOf issue) "customfield_10049") "value") .null ∧
  b.severity = jsOr (chain (getF (fieldsOf issue) "customfield_10268") "value") .null ∧
  b.comments.length = (jsArrOf (chain (getF (fieldsOf issue) "comment") "comments")).length ∧
  b.components.length = (jsArrOf (getF (fieldsOf issue) "components")).length ∧
  (∀ kv ∈ b.customFields, strStartsWith kv.1 "customfield_" = true ∧ isNull kv.2 = false) ∧
  ∀ ms, fieldsOf issue = JVal.obj ms →
    ∀ kv ∈ ms, strStartsWith kv.1 "customfield_" = true → isNull kv.2 = false →
      kv ∈ b.customFields

/-- C8 (amended). The Record Mapper never throws on issues within the
`mapperShapeOk` shape (the claim's "arbitrary raw issue JSON" is too wide:
see the counterexample), and on that shape absent or malformed fields are
passed through as the documented empty/null/"Unknown" defaults. The proved
facts additionally characterize `customFields` in both directions: every
extracted member is a non-null `customfield_`-prefixed one, and every such
member of the raw field set is extracted. -/
theorem mapIssueToBug_total_on_wellshaped (issue : JVal) (h : mapperShapeOk issue) :
    ∃ b, mapIssueToBug issue = .ok b ∧ mappedBugFacts issue b := by
  obtain ⟨hn, hc, hcm, hd, hcomp, hcompel⟩ := h
  obtain ⟨cs, hcs, hcslen, -⟩ :=
    @collMap_facts CommentE mkComment (chain (getF (fieldsOf issue) "comment") "comments")
      hc (fun c hmem => mkComment_total (hcm c hmem))
  obtain ⟨desc, hdesc⟩ := exists_ok_of_isOk hd
  obtain ⟨comps, hcomps, hcompslen, -⟩ :=
    @collMap_facts (Option JVal) (fun c => if isNull c then .error () else .ok (getF c "name"))
      (getF (fieldsOf issue) "components")
      hcomp (fun c hmem => ⟨getF c "name", by simp [hcompel c hmem]⟩)
  refine ⟨{ key := getF issue "key"
            id := getF issue "id"
            summary := jsOr (getF (fieldsOf issue) "summary") (.str "")
            description := desc
            status := jsOr (chain (getF (fieldsOf issue) "status") "name") (.str "Unknown")
            resolution := jsOr (chain (getF (fieldsOf issue) "resolution") "name") .null
            priority := jsOr (chain (getF (fieldsOf issue) "priority") "name") .null
            components := comps
            labels := jsOr (getF (fieldsOf issue) "labels") (.arr [])
            created := getF (fieldsOf issue) "created"
            updated := getF (fieldsOf issue) "updated"
            reporter := jsOr (chain (getF (fieldsOf issue) "reporter") "displayName") .null
            assignee := jsOr (chain (getF (fieldsOf issue) "assignee") "displayName") .null
            comments := cs
            failureType := jsOr (chain (getF (fieldsOf issue) "customfield_10165") "value") .null
            isEscapeBug :=
              strictEqStr (chain (getF (fieldsOf issue) "customfield_10164") "value") "Yes"
            customerImpact := jsOr (chain (getF (fieldsOf issue) "customfield_10066") "value") .null
            customer := jsOr (chain (getF (fieldsOf issue) "customfield_10049") "value") .null
            severity := jsOr (chain (getF (fieldsOf issue) "customfield_10268") "value") .null
            customFields := extractCustomFields (fieldsOf issue) }, ?_, ?_⟩
  · unfold mapIssueToBug
    simp only [hn, Bool.false_eq_true, if_false, hcs, hdesc, hcomps, exBind_ok, exPure_eq]
  · refine ⟨rfl, rfl, rfl, rfl, rfl, rfl, rfl, ?_⟩
    refine ⟨rfl, rfl, rfl, rfl, rfl, rfl, rfl, hcslen, hcompslen,
      fun kv hkv => extractCustomFields_mem hkv, ?_⟩
    intro ms hms kv hkv hp hnn
    show kv ∈ extractCustomFields (fieldsOf issue)
    rw [hms]
    exact extractCustomFields_complete hkv hp hnn

theorem mapIssueToBug_total_on_wellshaped_witness :
    mapperShapeOk (.obj [("key", .str "BUG-1"),
        ("fields", .obj [("summary", .str "s"), ("customfield_10164", .null)])]) ∧
      ∃ b, mapIssueToBug (.obj [("key", .str "BUG-1"),
          ("fields", .obj [("summary", .str "s"), ("customfield_10164", .null)])]) = .ok b ∧
        mappedBugFacts (.obj [("key", .str "BUG-1"),
          ("fields", .obj [("summary", .str "s"), ("customfield_10164", .null)])]) b :=
  ⟨by decide,
   mapIssueToBug_total_on_wellshaped
     (.obj [("key", .str "BUG-1"),
       ("fields", .obj [("summary", .str "s"), ("customfield_10164", .null)])]) (by decide)⟩

/-- C8 counterexample. The Record Mapper is not total on arbitrary raw issue
JSON: a truthy non-array `components` value makes
`(fields.components || []).map(...)` throw a `TypeError`, so `mapIssueToBug`
errors instead of passing the malformed field through as a default. -/
theorem mapIssueToBug_throws_counterexample :
    mapIssueToBug (.obj [("fields", .obj [("components", .num 5)])]) = .error () ∧
      mapIssueToBug (.obj [("fields", .obj [("description",
        .obj [("content", .arr [.null])])])]) = .error () :=
  ⟨rfl, rfl⟩
